import Mathlib

/-!
Geometric primitives, the cubemap camera, the blur chain and the include
preprocessor.

A shallow embedding of the bounding boxes, spheres, planes, lines and the frustum of
`src/math-euclidean.hpp`, of `CubemapCamera` of `src/gl/gl-camera.hpp`, of the blur
chain `src/frosted-glass/frosted-glass.cpp` uses and of `preprocess_includes` of
`src/gl/gl-shader-monitor.hpp`, and theorems about them.

Arithmetic. The C++ code computes in `float`. The vector operations, `Bounds3D`,
`Plane::distance_to` and the box overloads of `Frustum` are defined for any scalar
type `F` that has the operations they use, and are read at two scalar types: at `F32`,
a model of binary32 in which every operation rounds to nearest, and at a linearly
ordered field `K`, exact arithmetic. Where rounding decides a property of these
functions, the theorem is about `F32`. Every other definition lives in a linearly
ordered field `K`: it is the source's expression read in exact arithmetic, so rounding,
infinities and NaN are outside the model; these run on `ℚ` and the theorems hold on
`ℝ`.  `std::sqrt` is a parameter `sqrt : K → K`; theorems that need its meaning assume
`IsSqrt sqrt`, which `Real.sqrt` satisfies.  A quotient by zero is `0` in a field where
IEEE arithmetic yields an infinity or NaN; no theorem below relies on the value of such
a quotient except where its doc comment says so.
-/

namespace avl

section Definitions

variable {K : Type} [LinearOrderedField K]

/-- Modelled from the spec: `float3` comes from `math-common.hpp` (linalg), which is
not among the sources; a vector of three scalars `x`, `y`, `z` whose default
constructor yields the origin. -/
structure float3 (K : Type) where
  x : K
  y : K
  z : K
deriving DecidableEq

/-- Modelled from the spec: `float4` comes from `math-common.hpp` (linalg), which is
not among the sources; a vector of four scalars `x`, `y`, `z`, `w`. -/
structure float4 (K : Type) where
  x : K
  y : K
  z : K
  w : K
deriving DecidableEq

/-- Modelled from the spec: `float4x4` comes from `math-common.hpp` (linalg), which is
not among the sources; four columns `x`, `y`, `z`, `w`, so that `m[i]` is
column `i` and `m[i][j]` its entry in row `j`. -/
structure float4x4 (K : Type) where
  x : float4 K
  y : float4 K
  z : float4 K
  w : float4 K
deriving DecidableEq

/-- Modelled from the spec: component-wise `a + b` of linalg. -/
def float3.add {F : Type} [Add F] (a b : float3 F) : float3 F := ⟨a.x + b.x, a.y + b.y, a.z + b.z⟩

/-- Modelled from the spec: component-wise `a - b` of linalg. -/
def float3.sub {F : Type} [Sub F] (a b : float3 F) : float3 F := ⟨a.x - b.x, a.y - b.y, a.z - b.z⟩

/-- Modelled from the spec: `a * s` of linalg, a vector times a scalar. -/
def float3.scale {F : Type} [Mul F] (a : float3 F) (s : F) : float3 F := ⟨a.x * s, a.y * s, a.z * s⟩

/-- Modelled from the spec: `a / s` of linalg, a vector divided by a scalar. -/
def float3.divide (a : float3 K) (s : K) : float3 K := ⟨a.x / s, a.y / s, a.z / s⟩

/-- Modelled from the spec: `equation *= n` of linalg, a `float4` times a scalar. -/
def float4.scale (a : float4 K) (s : K) : float4 K := ⟨a.x * s, a.y * s, a.z * s, a.w * s⟩

/-- Modelled from the spec: component-wise `a + b` of linalg on `float4`. -/
def float4.add (a b : float4 K) : float4 K := ⟨a.x + b.x, a.y + b.y, a.z + b.z, a.w + b.w⟩

/-- Modelled from the spec: component-wise `a - b` of linalg on `float4`. -/
def float4.sub (a b : float4 K) : float4 K := ⟨a.x - b.x, a.y - b.y, a.z - b.z, a.w - b.w⟩

/-- Modelled from the spec: the swizzle `xyz()` of linalg. -/
def float4.xyz {F : Type} (a : float4 F) : float3 F := ⟨a.x, a.y, a.z⟩

/-- Modelled from the spec: the subscript `v[i]` of a linalg `float4`. -/
def float4.get (a : float4 K) : Fin 4 → K
  | 0 => a.x
  | 1 => a.y
  | 2 => a.z
  | 3 => a.w

/-- The `float4` whose subscript `i` holds `f i`: the effect of a loop
`for (int i = 0; i < 4; ++i) v[i] = f(i)`. -/
def float4.ofFn (f : Fin 4 → K) : float4 K := ⟨f 0, f 1, f 2, f 3⟩

/-- Modelled from the spec: the subscript `m[i]` of a linalg `float4x4`, column `i`. -/
def float4x4.col (m : float4x4 K) : Fin 4 → float4 K
  | 0 => m.x
  | 1 => m.y
  | 2 => m.z
  | 3 => m.w

/-- Modelled from the spec: `m.row(j)` of linalg, the entries `m[i][j]` for the four
columns `i`. -/
def float4x4.row (m : float4x4 K) (j : Fin 4) : float4 K := float4.ofFn fun i => (m.col i).get j

/-- Modelled from the spec: `mul(m, v)` of linalg, the matrix-vector product
`m.x * v.x + m.y * v.y + m.z * v.z + m.w * v.w` of the columns. -/
def float4x4.mulVec (m : float4x4 K) (v : float4 K) : float4 K :=
  float4.ofFn fun j =>
    (m.col 0).get j * v.x + (m.col 1).get j * v.y + (m.col 2).get j * v.z + (m.col 3).get j * v.w

/-- Modelled from the spec: `dot(a, b)` of linalg. -/
def dot {F : Type} [Add F] [Mul F] (a b : float3 F) : F := a.x * b.x + a.y * b.y + a.z * b.z

/-- Modelled from the spec: `length2(a)` of linalg, the squared length. -/
def length2 (a : float3 K) : K := dot a a

/-- Modelled from the spec: `length(a)` of linalg, `std::sqrt(length2(a))`. -/
def length (sqrt : K → K) (a : float3 K) : K := sqrt (length2 a)

/-- What the theorems assume of `std::sqrt`: on a non-negative argument it is the
non-negative root. -/
def IsSqrt (sqrt : K → K) : Prop := ∀ x, 0 ≤ x → 0 ≤ sqrt x ∧ sqrt x * sqrt x = x

/-! ## Bounds3D -/

/-- The `struct Bounds3D`: the corners `_min` and `_max`. -/
structure Bounds3D (K : Type) where
  _min : float3 K
  _max : float3 K
deriving DecidableEq

/-- The accessor `Bounds3D::min`. -/
def Bounds3D.min {F : Type} (b : Bounds3D F) : float3 F := b._min

/-- The accessor `Bounds3D::max`. -/
def Bounds3D.max {F : Type} (b : Bounds3D F) : float3 F := b._max

/-- The extent `Bounds3D::size`, `_max - _min`. -/
def Bounds3D.size {F : Type} [Sub F] (b : Bounds3D F) : float3 F := b._max.sub b._min

/-- The corner `Bounds3D::get_negative`: starts at `min()` and adds the size on each
axis where the normal is negative. The sum `min() + size()` is taken in the scalar type
`F`: it is the coordinate of `_max` in exact arithmetic, and in `float` only up to
rounding. -/
def Bounds3D.get_negative {F : Type} [Add F] [Sub F] [Zero F] [LT F] [∀ a b : F, Decidable (a < b)]
    (b : Bounds3D F) (normal : float3 F) : float3 F :=
  let result := b.min
  let s := b.size
  let result := if normal.x < 0 then { result with x := result.x + s.x } else result
  let result := if normal.y < 0 then { result with y := result.y + s.y } else result
  let result := if normal.z < 0 then { result with z := result.z + s.z } else result
  result

/-- The corner `Bounds3D::get_positive`: starts at `min()` and adds the size on each
axis where the normal is positive. The sum `min() + size()` is taken in the scalar type
`F`: it is the coordinate of `_max` in exact arithmetic, and in `float` only up to
rounding. -/
def Bounds3D.get_positive {F : Type} [Add F] [Sub F] [Zero F] [LT F] [∀ a b : F, Decidable (a < b)]
    (b : Bounds3D F) (normal : float3 F) : float3 F :=
  let result := b.min
  let s := b.size
  let result := if normal.x > 0 then { result with x := result.x + s.x } else result
  let result := if normal.y > 0 then { result with y := result.y + s.y } else result
  let result := if normal.z > 0 then { result with z := result.z + s.z } else result
  result

/-! ## Sphere -/

/-- The constant `SPHERE_EPSILON = 0.0001f`. -/
def SPHERE_EPSILON : K := 0.0001

/-- The `struct Sphere`: `center` and `radius`. -/
structure Sphere (K : Type) where
  center : float3 K
  radius : K
deriving DecidableEq

/-- The default constructor `Sphere() {}`. Its body is empty and the members have no
initializer: `center` is built by the default constructor of `float3`, the origin,
and `radius` is left uninitialized. `indeterminate` stands for whatever value is
read from it. -/
def Sphere.default (indeterminate : K) : Sphere K := ⟨⟨0, 0, 0⟩, indeterminate⟩

/-- The body of the inner loop of the first pass of `compute_enclosing_sphere`, for one
vertex `v`. -/
def compute_enclosing_sphere.grow (sqrt : K → K) (s : Sphere K) (v : float3 K) : Sphere K :=
  let distSqr := length2 (v.sub s.center)
  let radSq := s.radius * s.radius
  if distSqr > radSq then
    let p := sqrt distSqr / s.radius
    let p_inv := 1 / p
    let p_inv_sqr := p_inv * p_inv
    let radius := 0.5 * (p + p_inv) * s.radius
    let center := ((s.center.scale (1 + p_inv_sqr)).add (v.scale (1 - p_inv_sqr))).divide 2
    ⟨center, radius⟩
  else s

/-- The body of the closing loop of `compute_enclosing_sphere`, for one vertex `v`; the
new center is computed from the radius already updated. -/
def compute_enclosing_sphere.repair (sqrt : K → K) (s : Sphere K) (v : float3 K) : Sphere K :=
  let distSqr := length2 (v.sub s.center)
  let radSqr := s.radius * s.radius
  if distSqr > radSqr then
    let dist := sqrt distSqr
    let radius := (s.radius + dist) / 2
    let center := s.center.add (((v.sub s.center).scale (dist - radius)).divide dist)
    ⟨center, radius⟩
  else s

/-- The function `compute_enclosing_sphere(vertices, minRadius)`. `indeterminate` is the
value read from the uninitialized radius of the default-constructed `Sphere`;
`minRadius` is clamped and then never read, as in the source. -/
def compute_enclosing_sphere (sqrt : K → K) (indeterminate : K) (vertices : List (float3 K))
    (minRadius : K) : Sphere K :=
  if vertices.length > 3 then Sphere.default indeterminate
  else
    let _minRadius := if minRadius < SPHERE_EPSILON then SPHERE_EPSILON else minRadius
    let s : Sphere K := Sphere.default indeterminate
    let s := (List.range 2).foldl
      (fun s _ => vertices.foldl (compute_enclosing_sphere.grow sqrt) s) s
    let s := vertices.foldl (compute_enclosing_sphere.repair sqrt) s
    s

/-! ## Plane -/

/-- The `struct Plane`: its `equation`, normal in `xyz` and distance in `w`. -/
structure Plane (K : Type) where
  equation : float4 K
deriving DecidableEq

/-- The constructor `Plane(const float3 & normal, const float & distance)`. -/
def Plane.ofNormalDistance {F : Type} (normal : float3 F) (distance : F) : Plane F :=
  ⟨⟨normal.x, normal.y, normal.z, distance⟩⟩

/-- The constructor `Plane(const float3 & normal, const float3 & point)`. -/
def Plane.ofNormalPoint (normal point : float3 K) : Plane K :=
  ⟨⟨normal.x, normal.y, normal.z, -dot normal point⟩⟩

/-- The accessor `Plane::get_normal`. -/
def Plane.get_normal {F : Type} (p : Plane F) : float3 F := p.equation.xyz

/-- The method `Plane::normalize`: `n = 1 / length(get_normal()); equation *= n`. -/
def Plane.normalize (sqrt : K → K) (p : Plane K) : Plane K :=
  let n := 1 / length sqrt p.get_normal
  ⟨p.equation.scale n⟩

/-- The method `Plane::distance_to`: `dot(get_normal(), point) + equation.w`. -/
def Plane.distance_to {F : Type} [Add F] [Mul F] (p : Plane F) (point : float3 F) : F :=
  dot p.get_normal point + p.equation.w

/-! ## Frustum -/

/-- The `enum FrustumPlane`, the subscripts 0 to 5 of `Frustum::planes`. -/
inductive FrustumPlane where
  | RIGHT
  | LEFT
  | BOTTOM
  | TOP
  | NEAR
  | FAR
deriving DecidableEq

/-- The subscripts in the order `for (int p = 0; p < 6; p++)` visits them. -/
def FrustumPlane.order : List FrustumPlane :=
  [.RIGHT, .LEFT, .BOTTOM, .TOP, .NEAR, .FAR]

/-- The `struct Frustum`: the array `Plane planes[6]`. -/
structure Frustum (K : Type) where
  planes : FrustumPlane → Plane K

/-- The loop shape shared by the tests of `Frustum`:
`for (p ...) { if (reject p) return false; } return true;`. -/
def Frustum.none_rejects (reject : FrustumPlane → Bool) : List FrustumPlane → Bool
  | [] => true
  | p :: rest => if reject p then false else Frustum.none_rejects reject rest

/-- The default constructor `Frustum()`. -/
def Frustum.default : Frustum K where
  planes
    | .RIGHT => Plane.ofNormalDistance ⟨-1, 0, 0⟩ 1
    | .LEFT => Plane.ofNormalDistance ⟨1, 0, 0⟩ 1
    | .BOTTOM => Plane.ofNormalDistance ⟨0, 1, 0⟩ 1
    | .TOP => Plane.ofNormalDistance ⟨0, -1, 0⟩ 1
    | .NEAR => Plane.ofNormalDistance ⟨0, 0, 1⟩ 1
    | .FAR => Plane.ofNormalDistance ⟨0, 0, -1⟩ 1

/-- The six planes of `Frustum(const float4x4 & viewProj)` as its six assignment
loops leave them, before the closing `for (auto & p : planes) p.normalize()`. -/
def Frustum.extract (viewProj : float4x4 K) : Frustum K where
  planes
    | .RIGHT => ⟨float4.ofFn fun i => (viewProj.col i).get 3 - (viewProj.col i).get 0⟩
    | .LEFT => ⟨float4.ofFn fun i => (viewProj.col i).get 3 + (viewProj.col i).get 0⟩
    | .BOTTOM => ⟨float4.ofFn fun i => (viewProj.col i).get 3 + (viewProj.col i).get 1⟩
    | .TOP => ⟨float4.ofFn fun i => (viewProj.col i).get 3 - (viewProj.col i).get 1⟩
    | .NEAR => ⟨float4.ofFn fun i => (viewProj.col i).get 3 + (viewProj.col i).get 2⟩
    | .FAR => ⟨float4.ofFn fun i => (viewProj.col i).get 3 - (viewProj.col i).get 2⟩

/-- The constructor `Frustum(const float4x4 & viewProj)`: the six extracted planes,
each normalized. -/
def Frustum.ofViewProj (sqrt : K → K) (viewProj : float4x4 K) : Frustum K where
  planes p := ((Frustum.extract viewProj).planes p).normalize sqrt

/-- The sphere overload `Frustum::contains(center, radius)`. -/
def Frustum.contains_sphere (f : Frustum K) (center : float3 K) (radius : K) : Bool :=
  Frustum.none_rejects (fun p => decide ((f.planes p).distance_to center < radius))
    FrustumPlane.order

/-- The box overload `Frustum::contains(center, size)`. -/
def Frustum.contains_box {F : Type} [Add F] [Sub F] [Mul F] [Zero F] [OfScientific F] [LT F] [∀ a b : F, Decidable (a < b)]
    (f : Frustum F) (center size : float3 F) : Bool :=
  let half := size.scale 0.5
  let box : Bounds3D F := ⟨center.sub half, center.add half⟩
  Frustum.none_rejects
    (fun p =>
      if (f.planes p).distance_to (box.get_positive (f.planes p).get_normal) < 0 then true
      else if (f.planes p).distance_to (box.get_negative (f.planes p).get_normal) < 0 then true
      else false)
    FrustumPlane.order

/-- The sphere overload `Frustum::intersects(center, radius)`. -/
def Frustum.intersects_sphere (f : Frustum K) (center : float3 K) (radius : K) : Bool :=
  Frustum.none_rejects (fun p => decide ((f.planes p).distance_to center ≤ -radius))
    FrustumPlane.order

/-- The box overload `Frustum::intersects(center, size)`. -/
def Frustum.intersects_box {F : Type} [Add F] [Sub F] [Mul F] [Zero F] [OfScientific F] [LT F] [∀ a b : F, Decidable (a < b)]
    (f : Frustum F) (center size : float3 F) : Bool :=
  let half := size.scale 0.5
  let box : Bounds3D F := ⟨center.sub half, center.add half⟩
  Frustum.none_rejects
    (fun p =>
      decide ((f.planes p).distance_to (box.get_positive (f.planes p).get_normal) < 0))
    FrustumPlane.order

/-! ## Notions the statements use -/

/-- The point `q` lies in the box `[center - size/2, center + size/2]`, on each axis. -/
def InBox (center size q : float3 K) : Prop :=
  (center.x - size.x / 2 ≤ q.x ∧ q.x ≤ center.x + size.x / 2) ∧
  (center.y - size.y / 2 ≤ q.y ∧ q.y ≤ center.y + size.y / 2) ∧
  (center.z - size.z / 2 ≤ q.z ∧ q.z ≤ center.z + size.z / 2)

/-- The eight corners of the box `[center - size/2, center + size/2]`. -/
def box_corners (center size : float3 K) : List (float3 K) :=
  [⟨center.x - size.x / 2, center.y - size.y / 2, center.z - size.z / 2⟩,
   ⟨center.x + size.x / 2, center.y - size.y / 2, center.z - size.z / 2⟩,
   ⟨center.x - size.x / 2, center.y + size.y / 2, center.z - size.z / 2⟩,
   ⟨center.x + size.x / 2, center.y + size.y / 2, center.z - size.z / 2⟩,
   ⟨center.x - size.x / 2, center.y - size.y / 2, center.z + size.z / 2⟩,
   ⟨center.x + size.x / 2, center.y - size.y / 2, center.z + size.z / 2⟩,
   ⟨center.x - size.x / 2, center.y + size.y / 2, center.z + size.z / 2⟩,
   ⟨center.x + size.x / 2, center.y + size.y / 2, center.z + size.z / 2⟩]

/-- The identity matrix. -/
def identity4x4 : float4x4 K :=
  ⟨⟨1, 0, 0, 0⟩, ⟨0, 1, 0, 0⟩, ⟨0, 0, 1, 0⟩, ⟨0, 0, 0, 1⟩⟩

/-! ## Bounds2D and the point tests of Bounds3D -/

/-- Modelled from the spec: `float2` comes from `math-common.hpp` (linalg), which is
not among the sources; a vector of two scalars `x`, `y`. -/
structure float2 (K : Type) where
  x : K
  y : K
deriving DecidableEq

/-- The `struct Bounds2D`: the corners `_min` and `_max`. -/
structure Bounds2D (K : Type) where
  _min : float2 K
  _max : float2 K
deriving DecidableEq

/-- The method `Bounds2D::contains(px, py)`. -/
def Bounds2D.contains (b : Bounds2D K) (px py : K) : Bool :=
  decide (px ≥ b._min.x) && decide (py ≥ b._min.y) && decide (px < b._max.x)
    && decide (py < b._max.y)

/-- The method `Bounds2D::contains(point)`, which forwards to `contains(px, py)`. -/
def Bounds2D.contains_point (b : Bounds2D K) (point : float2 K) : Bool :=
  b.contains point.x point.y

/-- The method `Bounds3D::contains(point)`. -/
def Bounds3D.contains {F : Type} [LT F] [∀ a b : F, Decidable (a < b)] (b : Bounds3D F) (point : float3 F) :
    Bool :=
  if point.x < b._min.x ∨ point.x > b._max.x then false
  else if point.y < b._min.y ∨ point.y > b._max.y then false
  else if point.z < b._min.z ∨ point.z > b._max.z then false
  else true

/-- Modelled from the spec: `linalg::min(a, b)` on vectors, the component-wise
minimum. -/
def float3.min (a b : float3 K) : float3 K := ⟨Min.min a.x b.x, Min.min a.y b.y, Min.min a.z b.z⟩

/-- Modelled from the spec: `linalg::max(a, b)` on vectors, the component-wise
maximum. -/
def float3.max (a b : float3 K) : float3 K := ⟨Max.max a.x b.x, Max.max a.y b.y, Max.max a.z b.z⟩

/-- The method `Bounds3D::surround(p)`: the box after the call. -/
def Bounds3D.surround (b : Bounds3D K) (p : float3 K) : Bounds3D K :=
  ⟨float3.min b._min p, float3.max b._max p⟩

/-! ## The perspective scenario -/

/-- Modelled from the spec: the view-projection matrix of a perspective camera at the
origin looking down -Z with near plane `n` and far plane `f`. The view matrix of such
a camera is the identity, and the projection is the right-handed OpenGL one that
`make_projection_matrix` of `math-core.hpp` (not among the sources) builds for a
symmetric frustum: the columns are `(sx, 0, 0, 0)`, `(0, sy, 0, 0)`,
`(0, 0, -(f + n) / (f - n), -1)` and `(0, 0, -2 f n / (f - n), 0)`, where
`sy = 1 / tan(vfov / 2)` and `sx = sy / aspect` are the focal scales. -/
def perspective_matrix (sx sy n f : K) : float4x4 K :=
  ⟨⟨sx, 0, 0, 0⟩, ⟨0, sy, 0, 0⟩, ⟨0, 0, -(f + n) / (f - n), -1⟩, ⟨0, 0, -2 * f * n / (f - n), 0⟩⟩

/-- The six half-spaces of that camera in lowest terms: `-sx x - z >= 0` (RIGHT),
`sx x - z >= 0` (LEFT), `sy y - z >= 0` (BOTTOM), `-sy y - z >= 0` (TOP),
`-z - n >= 0` (NEAR) and `z + f >= 0` (FAR). -/
def perspective_planes (sx sy n f : K) : Frustum K where
  planes
    | .RIGHT => ⟨⟨-sx, 0, -1, 0⟩⟩
    | .LEFT => ⟨⟨sx, 0, -1, 0⟩⟩
    | .BOTTOM => ⟨⟨0, sy, -1, 0⟩⟩
    | .TOP => ⟨⟨0, -sy, -1, 0⟩⟩
    | .NEAR => ⟨⟨0, 0, -1, -n⟩⟩
    | .FAR => ⟨⟨0, 0, 1, f⟩⟩

/-! ## CubemapCamera (`gl/gl-camera.hpp`)

The OpenGL context is state the code reads and writes through GL calls. The model
keeps the bindings those calls touch and a trace of every call `update` makes, in
order; the render callback is code of the caller, free to change the context. -/

/-- Modelled from the spec: the binding points `GL_DRAW_FRAMEBUFFER` and
`GL_READ_FRAMEBUFFER` of OpenGL, which is not among the sources. -/
inductive FramebufferTarget where
  | DRAW_FRAMEBUFFER
  | READ_FRAMEBUFFER
deriving DecidableEq

/-- Modelled from the spec: the attachment points `GL_COLOR_ATTACHMENT0` and
`GL_DEPTH_ATTACHMENT` of OpenGL, which is not among the sources. -/
inductive Attachment where
  | COLOR_ATTACHMENT0
  | DEPTH_ATTACHMENT
deriving DecidableEq

/-- Modelled from the spec: the bindings of the OpenGL context that `CubemapCamera`
reads or writes: the draw and the read framebuffer (`GL_DRAW_FRAMEBUFFER_BINDING`,
`GL_READ_FRAMEBUFFER_BINDING`) and the cube map texture. -/
structure GlContext where
  drawFramebufferBinding : Nat
  readFramebufferBinding : Nat
  textureCubeMapBinding : Nat
deriving DecidableEq

/-- The calls `CubemapCamera` makes, as the trace records them. A cube face is the
offset `i` of `GL_TEXTURE_CUBE_MAP_POSITIVE_X + i`: 0 to 5 are +X, -X, +Y, -Y, +Z, -Z.
`write_png i` is `stbi_write_png` on the file `faceNames[i] + ".png"`. -/
inductive Call (K : Type) where
  | bindFramebuffer (target : FramebufferTarget) (framebuffer : Nat)
  | framebufferTexture2D (attachment : Attachment) (face : Nat) (texture : Nat)
  | viewport (x y width height : K)
  | clearColor (r g b a : K)
  | clear
  | render (eyePosition : float3 K) (viewMatrix projMatrix : float4x4 K)
  | bindTexture (texture : Nat)
  | getTexImage (face : Nat)
  | write_png (face : Nat)
deriving DecidableEq

/-- The OpenGL context together with the trace of the calls made so far, oldest
first. -/
structure World (K : Type) where
  gl : GlContext
  trace : List (Call K)

/-- Modelled from the spec: the effect of an OpenGL call on the bindings.
`glBindFramebuffer` sets the binding of its target and `glBindTexture` the cube map
binding; the other calls leave the bindings alone. A `render` entry is handled by
`CubemapCamera.render_faces`. -/
def GlContext.apply (g : GlContext) : Call K → GlContext
  | .bindFramebuffer .DRAW_FRAMEBUFFER fb => { g with drawFramebufferBinding := fb }
  | .bindFramebuffer .READ_FRAMEBUFFER fb => { g with readFramebufferBinding := fb }
  | .bindTexture t => { g with textureCubeMapBinding := t }
  | _ => g

/-- Make one call: apply its effect and record it. -/
def World.call (w : World K) (c : Call K) : World K :=
  { gl := w.gl.apply c, trace := w.trace ++ [c] }

/-- The type of the member `render`, a `std::function<void(float3, float4x4, float4x4)>`.
Called in a context, it either returns normally (`ok`) or throws (`error`), and in
both cases leaves a context behind. -/
abbrev RenderCallback (K : Type) : Type :=
  float3 K → float4x4 K → float4x4 K → GlContext → Except GlContext GlContext

/-- A callback that always returns normally, changing the context by `r`. -/
def RenderCallback.returning (r : float3 K → float4x4 K → float4x4 K → GlContext → GlContext) :
    RenderCallback K :=
  fun eye view proj g => .ok (r eye view proj g)

/-- Modelled from the spec: the functions of `math-core.hpp` that `update` calls and
that are not among the sources, taken as parameters: `make_projection_matrix(vfov,
aspect, near, far)`, `to_radians(degrees)` and
`look_at_pose_rh(eye, target, up).view_matrix()`. -/
structure MathCore (K : Type) where
  make_projection_matrix : K → K → K → K → float4x4 K
  to_radians : K → K
  look_at_view_matrix : float3 K → float3 K → float3 K → float4x4 K

/-- The `class CubemapCamera`: the handles of its framebuffer and its two cube
textures, `resolution`, the flag `shouldCapture` and the member `render`, which is
empty (`none`) until the caller assigns it. -/
structure CubemapCamera (K : Type) where
  framebuffer : Nat
  cubeMapColor : Nat
  cubeMapDepth : Nat
  resolution : K
  shouldCapture : Bool
  render : Option (RenderCallback K)

/-- The constructor `CubemapCamera(int resolution)`, given the handles of the objects
it creates: `shouldCapture` starts false and `render` empty. -/
def CubemapCamera.create (framebuffer cubeMapColor cubeMapDepth : Nat) (resolution : K) :
    CubemapCamera K :=
  ⟨framebuffer, cubeMapColor, cubeMapDepth, resolution, false, none⟩

/-- The method `export_pngs`: `shouldCapture = true`. -/
def CubemapCamera.export_pngs (cam : CubemapCamera K) : CubemapCamera K :=
  { cam with shouldCapture := true }

/-- The loop of `save_pngs` over the faces: read the face back and write its file. -/
def CubemapCamera.save_faces : List Nat → World K → World K
  | [], w => w
  | i :: rest, w =>
    let w := w.call (.getTexImage i)
    let w := w.call (.write_png i)
    CubemapCamera.save_faces rest w

/-- The method `save_pngs`: bind the color cube map, save the six faces, unbind, and
clear `shouldCapture`. -/
def CubemapCamera.save_pngs (cam : CubemapCamera K) (w : World K) : CubemapCamera K × World K :=
  let w := w.call (.bindTexture cam.cubeMapColor)
  let w := CubemapCamera.save_faces (List.range 6) w
  let w := w.call (.bindTexture 0)
  ({ cam with shouldCapture := false }, w)

/-- The local `targets` of `update`. -/
def CubemapCamera.targets : List (float3 K) :=
  [⟨1, 0, 0⟩, ⟨-1, 0, 0⟩, ⟨0, 1, 0⟩, ⟨0, -1, 0⟩, ⟨0, 0, 1⟩, ⟨0, 0, -1⟩]

/-- The local `upVecs` of `update`. -/
def CubemapCamera.upVecs : List (float3 K) :=
  [⟨0, -1, 0⟩, ⟨0, -1, 0⟩, ⟨0, 0, 1⟩, ⟨0, 0, 1⟩, ⟨0, -1, 0⟩, ⟨0, -1, 0⟩]

/-- The local `projMatrix` of `update`:
`make_projection_matrix(to_radians(90.f), 1.0f, 0.1f, 128.f)`. -/
def CubemapCamera.projMatrix (m : MathCore K) : float4x4 K :=
  m.make_projection_matrix (m.to_radians 90) 1 0.1 128

/-- The local `viewMatrix` of the loop of `update` for face `i`:
`look_at_pose_rh(worldLocation, targets[i], upVecs[i]).view_matrix()`. -/
def CubemapCamera.viewMatrix (m : MathCore K) (worldLocation : float3 K) (i : Nat) : float4x4 K :=
  m.look_at_view_matrix worldLocation (CubemapCamera.targets.getD i ⟨0, 0, 0⟩)
    (CubemapCamera.upVecs.getD i ⟨0, 0, 0⟩)

/-- The loop `for (int i = 0; i < 6; ++i)` of `update` over the faces still to do.
Each face is attached as color and depth target, the viewport set and the target
cleared; then the callback, if there is one, is invoked. A callback that throws ends
the loop at once with the context it left (`error`). -/
def CubemapCamera.render_faces (m : MathCore K) (cam : CubemapCamera K)
    (worldLocation : float3 K) : List Nat → World K → Except (World K) (World K)
  | [], w => .ok w
  | i :: rest, w =>
    let w := w.call (.framebufferTexture2D .COLOR_ATTACHMENT0 i cam.cubeMapColor)
    let w := w.call (.framebufferTexture2D .DEPTH_ATTACHMENT i cam.cubeMapDepth)
    let w := w.call (.viewport 0 0 cam.resolution cam.resolution)
    let w := w.call (.clearColor 0 0 0 1)
    let w := w.call .clear
    match cam.render with
    | none => CubemapCamera.render_faces m cam worldLocation rest w
    | some render =>
      let invoked := w.trace ++
        [.render worldLocation (CubemapCamera.viewMatrix m worldLocation i)
          (CubemapCamera.projMatrix m)]
      match render worldLocation (CubemapCamera.viewMatrix m worldLocation i)
          (CubemapCamera.projMatrix m) w.gl with
      | .ok g => CubemapCamera.render_faces m cam worldLocation rest ⟨g, invoked⟩
      | .error g => .error ⟨g, invoked⟩

/-- The method `update(worldLocation)`. The result is `ok` when `update` returns and
`error` when an exception of the callback leaves it; both carry the camera and the
world at that point. -/
def CubemapCamera.update (m : MathCore K) (cam : CubemapCamera K) (worldLocation : float3 K)
    (w : World K) : Except (CubemapCamera K × World K) (CubemapCamera K × World K) :=
  if cam.shouldCapture then
    let drawFboId := w.gl.drawFramebufferBinding
    let readFboId := w.gl.readFramebufferBinding
    let w := w.call (.bindFramebuffer .DRAW_FRAMEBUFFER cam.framebuffer)
    let w := w.call (.bindFramebuffer .READ_FRAMEBUFFER cam.framebuffer)
    match CubemapCamera.render_faces m cam worldLocation (List.range 6) w with
    | .error w => .error (cam, w)
    | .ok w =>
      let saved := cam.save_pngs w
      let w := saved.2.call (.bindFramebuffer .DRAW_FRAMEBUFFER drawFboId)
      let w := w.call (.bindFramebuffer .READ_FRAMEBUFFER readFboId)
      .ok (saved.1, w)
  else .ok (cam, w)

/-- The camera and the world when `update` is left, normally or by an exception. -/
def CubemapCamera.after (r : Except (CubemapCamera K × World K) (CubemapCamera K × World K)) :
    CubemapCamera K × World K :=
  match r with
  | .ok s => s
  | .error s => s

/-- The callback invocations of a trace, in order. -/
def Call.renders : List (Call K) → List (Call K)
  | [] => []
  | .render eye view proj :: rest => .render eye view proj :: Call.renders rest
  | _ :: rest => Call.renders rest

/-- The faces of the images a trace writes, in order. -/
def Call.written : List (Call K) → List Nat
  | [] => []
  | .write_png i :: rest => i :: Call.written rest
  | _ :: rest => Call.written rest

/-- The calls a trace has beyond the first `n`. -/
def Call.since (n : Nat) (trace : List (Call K)) : List (Call K) := trace.drop n

/-- The calls on a camera made from outside: `export_pngs()` and
`update(worldLocation)`. -/
inductive CubemapCamera.Op (K : Type) where
  | export_pngs
  | update (worldLocation : float3 K)

/-- Run a sequence of calls on a camera. The result lists, for each `update` of the
sequence, the faces of the images it wrote; an exception that leaves an `update` ends
the run (`error`). -/
def CubemapCamera.run (m : MathCore K) :
    List (CubemapCamera.Op K) → CubemapCamera K → World K →
      Except (CubemapCamera K × World K) (List (List Nat))
  | [], _, _ => .ok []
  | .export_pngs :: rest, cam, w => CubemapCamera.run m rest cam.export_pngs w
  | .update worldLocation :: rest, cam, w =>
    match cam.update m worldLocation w with
    | .error s => .error s
    | .ok s =>
      match CubemapCamera.run m rest s.1 s.2 with
      | .error e => .error e
      | .ok writes => .ok (Call.written (Call.since w.trace.length s.2.trace) :: writes)

/-- The claim's words for the export: an `update` writes the six face images exactly
when a request is pending, that is when `export_pngs` was called since the last
`update` that wrote; writing clears the request. -/
def CubemapCamera.expected_writes (pending : Bool) : List (CubemapCamera.Op K) → List (List Nat)
  | [] => []
  | .export_pngs :: rest => CubemapCamera.expected_writes true rest
  | .update _ :: rest =>
    (if pending then [0, 1, 2, 3, 4, 5] else []) :: CubemapCamera.expected_writes false rest

/-- The assignment `cam.render = callback` to the public member `render`. -/
def CubemapCamera.set_render (cam : CubemapCamera K) (callback : Option (RenderCallback K)) :
    CubemapCamera K :=
  { cam with render := callback }

/-- The claim's words for one face of a capture: face `i` is attached as color and as
depth target, the viewport is set and the target cleared, and then, when a callback is
set, it is invoked with the world location, the view of face `i` and the projection
matrix. -/
def CubemapCamera.face_trace (m : MathCore K) (cam : CubemapCamera K) (worldLocation : float3 K)
    (i : Nat) : List (Call K) :=
  [.framebufferTexture2D .COLOR_ATTACHMENT0 i cam.cubeMapColor,
   .framebufferTexture2D .DEPTH_ATTACHMENT i cam.cubeMapDepth,
   .viewport 0 0 cam.resolution cam.resolution,
   .clearColor 0 0 0 1,
   .clear] ++
  (if cam.render.isSome then
    [.render worldLocation (CubemapCamera.viewMatrix m worldLocation i)
      (CubemapCamera.projMatrix m)]
   else [])

/-- The traces of the given faces, one after the other. -/
def CubemapCamera.faces_trace (m : MathCore K) (cam : CubemapCamera K)
    (worldLocation : float3 K) : List Nat → List (Call K)
  | [] => []
  | i :: rest =>
    CubemapCamera.face_trace m cam worldLocation i
      ++ CubemapCamera.faces_trace m cam worldLocation rest

/-- The calls of `save_pngs`. -/
def CubemapCamera.save_trace (cam : CubemapCamera K) : List (Call K) :=
  [.bindTexture cam.cubeMapColor,
   .getTexImage 0, .write_png 0, .getTexImage 1, .write_png 1, .getTexImage 2, .write_png 2,
   .getTexImage 3, .write_png 3, .getTexImage 4, .write_png 4, .getTexImage 5, .write_png 5,
   .bindTexture 0]

/-- The calls of a whole capture that started with the bindings `drawFboId` and
`readFboId`: bind the camera's framebuffer, the six faces +X, -X, +Y, -Y, +Z, -Z in
this order, `save_pngs`, and the two restoring binds. -/
def CubemapCamera.capture_trace (m : MathCore K) (cam : CubemapCamera K)
    (worldLocation : float3 K) (drawFboId readFboId : Nat) : List (Call K) :=
  [.bindFramebuffer .DRAW_FRAMEBUFFER cam.framebuffer,
   .bindFramebuffer .READ_FRAMEBUFFER cam.framebuffer]
  ++ CubemapCamera.faces_trace m cam worldLocation [0, 1, 2, 3, 4, 5]
  ++ CubemapCamera.save_trace cam
  ++ [.bindFramebuffer .DRAW_FRAMEBUFFER drawFboId,
      .bindFramebuffer .READ_FRAMEBUFFER readFboId]

/-- A stand-in for `math-core.hpp` in closed examples, where the matrices play no
part: every matrix it returns is the identity. -/
def MathCore.identity : MathCore K :=
  ⟨fun _ _ _ _ => identity4x4, fun degrees => degrees, fun _ _ _ => identity4x4⟩

/-- The world of the closed examples: the default framebuffer 0 bound for drawing and
reading, and no call made yet. -/
def World.initial : World K := ⟨⟨0, 0, 0⟩, []⟩
/-! ## The blur chain of `frosted-glass.cpp` -/

/-- Modelled from the spec: `blur_chain` is declared in `frosted-glass.hpp`, which is
not among the sources; `frosted-glass.cpp` only creates it for the window size and
reads its targets 0 to 4. By the spec each level has half the resolution of the
previous one, by floor division, the first level half that of the surface: the
sizes of the first `levels` levels for a surface of `size`. -/
def blur_chain.level_sizes : Nat → Nat × Nat → List (Nat × Nat)
  | 0, _ => []
  | levels + 1, size => (size.1 / 2, size.2 / 2)
      :: blur_chain.level_sizes levels (size.1 / 2, size.2 / 2)

/-- Modelled from the spec: `blur_chain::execute` is declared in `frosted-glass.hpp`,
which is not among the sources. By the spec the passes execute strictly in declared
order: the indices of the levels in the order they execute. -/
def blur_chain.execution_order (levels : Nat) : List Nat := List.range levels

/-! ## Further members of Bounds2D, Bounds3D and Plane -/

/-- The method `Bounds2D::center`, as the source has it:
`{ (_min.x + _max.y) / 2, (_min.y + _max.y) / 2 }`. -/
def Bounds2D.center (b : Bounds2D K) : float2 K :=
  ⟨(b._min.x + b._max.y) / 2, (b._min.y + b._max.y) / 2⟩

/-- The method `Bounds3D::center`: `(_min + _max) * 0.5f`. -/
def Bounds3D.center (b : Bounds3D K) : float3 K := (b._min.add b._max).scale 0.5

/-- The method `Bounds2D::intersects(other)`. -/
def Bounds2D.intersects (b other : Bounds2D K) : Bool :=
  if (b._min.x ≤ other._min.x) ∧ (b._max.x ≥ other._max.x) ∧
      (b._min.y ≤ other._min.y) ∧ (b._max.y ≥ other._max.y) then true
  else false

/-- The method `Bounds3D::intersects(other)`. -/
def Bounds3D.intersects (b other : Bounds3D K) : Bool :=
  if (b._min.x ≤ other._min.x) ∧ (b._max.x ≥ other._max.x) ∧
      (b._min.y ≤ other._min.y) ∧ (b._max.y ≥ other._max.y) ∧
      (b._min.z ≤ other._min.z) ∧ (b._max.z ≥ other._max.z) then true
  else false

/-- The eight corners of a `Bounds3D`: each coordinate is that of `_min` or of
`_max`. -/
def Bounds3D.corners {F : Type} (b : Bounds3D F) : List (float3 F) :=
  [⟨b._min.x, b._min.y, b._min.z⟩, ⟨b._max.x, b._min.y, b._min.z⟩,
   ⟨b._min.x, b._max.y, b._min.z⟩, ⟨b._max.x, b._max.y, b._min.z⟩,
   ⟨b._min.x, b._min.y, b._max.z⟩, ⟨b._max.x, b._min.y, b._max.z⟩,
   ⟨b._min.x, b._max.y, b._max.z⟩, ⟨b._max.x, b._max.y, b._max.z⟩]

/-- The method `Plane::is_negative_half_space`: `dot(get_normal(), point) < equation.w`. -/
def Plane.is_negative_half_space (p : Plane K) (point : float3 K) : Bool :=
  decide (dot p.get_normal point < p.equation.w)

/-- The method `Plane::is_positive_half_space`: `dot(get_normal(), point) > equation.w`. -/
def Plane.is_positive_half_space (p : Plane K) (point : float3 K) : Bool :=
  decide (dot p.get_normal point > p.equation.w)

/-- The accessor `Plane::get_distance`. -/
def Plane.get_distance (p : Plane K) : K := p.equation.w

/-- Modelled from the spec: `cross(a, b)` of linalg, the cross product. -/
def cross (a b : float3 K) : float3 K :=
  ⟨a.y * b.z - a.z * b.y, a.z * b.x - a.x * b.z, a.x * b.y - a.y * b.x⟩

/-- Modelled from the spec: `transform_vector(m, v)` of `math-core.hpp`, which is not
among the sources: `mul(m, float4(v, 0)).xyz()`. -/
def transform_vector (m : float4x4 K) (v : float3 K) : float3 K :=
  (m.mulVec ⟨v.x, v.y, v.z, 0⟩).xyz

/-- Modelled from the spec: `transform_coord(m, c)` of `math-core.hpp`, which is not
among the sources: `r = mul(m, float4(c, 1))`, then `r.xyz() / r.w`. -/
def transform_coord (m : float4x4 K) (c : float3 K) : float3 K :=
  (m.mulVec ⟨c.x, c.y, c.z, 1⟩).xyz.divide (m.mulVec ⟨c.x, c.y, c.z, 1⟩).w

/-- The function `transform_plane(transform, p)`: the normal is transformed as a
vector, the point `p.get_distance() * p.get_normal()` as a coordinate, and the plane
is rebuilt from the two by `Plane(normal, point)`. -/
def transform_plane (transform : float4x4 K) (p : Plane K) : Plane K :=
  let normal := transform_vector transform p.get_normal
  let point_on_plane := transform_coord transform (p.get_normal.scale p.get_distance)
  Plane.ofNormalPoint normal point_on_plane

/-- The function `get_plane_point(p)`: `-1.0f * p.get_distance() * p.get_normal()`. -/
def get_plane_point (p : Plane K) : float3 K := p.get_normal.scale (-1 * p.get_distance)

/-- The function `plane_intersection(a, b, c)` of three planes. -/
def plane_intersection (a b c : Plane K) : float3 K :=
  let p1 := get_plane_point a
  let p2 := get_plane_point b
  let p3 := get_plane_point c
  let n1 := a.get_normal
  let n2 := b.get_normal
  let n3 := c.get_normal
  let det := dot n1 (cross n2 n3)
  ((((cross n2 n3).scale (dot p1 n1)).add ((cross n3 n1).scale (dot p2 n2))).add
    ((cross n1 n2).scale (dot p3 n3))).divide det

/-- The three planes each entry of `make_frustum_corners` is the intersection of, in
the order of the entries 0 to 7. -/
def frustum_corner_planes : List (FrustumPlane × FrustumPlane × FrustumPlane) :=
  [(.FAR, .TOP, .LEFT), (.FAR, .BOTTOM, .RIGHT), (.FAR, .BOTTOM, .LEFT), (.FAR, .TOP, .RIGHT),
   (.NEAR, .TOP, .LEFT), (.NEAR, .BOTTOM, .RIGHT), (.NEAR, .BOTTOM, .LEFT),
   (.NEAR, .TOP, .RIGHT)]

/-- The function `make_frustum_corners(f)`: the array of the eight corners. -/
def make_frustum_corners (f : Frustum K) : List (float3 K) :=
  [plane_intersection (f.planes .FAR) (f.planes .TOP) (f.planes .LEFT),
   plane_intersection (f.planes .FAR) (f.planes .BOTTOM) (f.planes .RIGHT),
   plane_intersection (f.planes .FAR) (f.planes .BOTTOM) (f.planes .LEFT),
   plane_intersection (f.planes .FAR) (f.planes .TOP) (f.planes .RIGHT),
   plane_intersection (f.planes .NEAR) (f.planes .TOP) (f.planes .LEFT),
   plane_intersection (f.planes .NEAR) (f.planes .BOTTOM) (f.planes .RIGHT),
   plane_intersection (f.planes .NEAR) (f.planes .BOTTOM) (f.planes .LEFT),
   plane_intersection (f.planes .NEAR) (f.planes .TOP) (f.planes .RIGHT)]

/-- The `struct Line`: `origin` and `direction`. -/
structure Line (K : Type) where
  origin : float3 K
  direction : float3 K
deriving DecidableEq

/-- The function `intersect_line_plane(l, p)`. -/
def intersect_line_plane (l : Line K) (p : Plane K) : float3 K :=
  let d := dot l.direction p.get_normal
  let distance := p.distance_to l.origin / d
  l.origin.sub (l.direction.scale distance)

/-- The claim's words for the cube faces: the canonical direction of face `i`, +X, -X,
+Y, -Y, +Z, -Z for 0 to 5. -/
def face_direction : Nat → float3 K
  | 0 => ⟨1, 0, 0⟩
  | 1 => ⟨-1, 0, 0⟩
  | 2 => ⟨0, 1, 0⟩
  | 3 => ⟨0, -1, 0⟩
  | 4 => ⟨0, 0, 1⟩
  | _ => ⟨0, 0, -1⟩
/-! ## preprocess_includes (`gl/gl-shader-monitor.hpp`)

The source text is taken line by line, as `std::getline` delivers it, and each line
as the regular expression classifies it. The function recurses on the included files
and need not return, so the model counts calls down from a `fuel`: `none` means that
the fuel ran out before the call returned or threw. -/

/-- A line of shader source as `std::regex_search` sees it: an include directive with
the file name it captures (`matches[1]`), or any other line. -/
inductive SourceLine where
  | directive (includeFile : String)
  | other (text : String)
deriving DecidableEq

/-- What `preprocess_includes` writes to `output`, line by line: `#line N`, a source
line, or the empty line that `std::endl` leaves after the text of an included file. -/
inductive OutputLine where
  | line_directive (lineNumber : Nat)
  | text (text : String)
  | blank
deriving DecidableEq

/-- The `std::runtime_error` of `preprocess_includes`, by its message. -/
inductive PreprocessError where
  | exceeded_max_include_recursion_depth
deriving DecidableEq

/-- What a call of `preprocess_includes` that returns leaves: the string returned and
the vector `includes`, which is passed by reference. -/
structure Preprocessed where
  output : List OutputLine
  includes : List String
deriving DecidableEq

/-- The loop `while (std::getline(input, line))` of `preprocess_includes` over the
lines still to read. `call` is the recursive call of `preprocess_includes`; it gets
`depth` as it is before the post-increment of `depth++`, and the loop goes on with
`depth + 1`. `files` stands for `read_file_text` on the include search path. -/
def preprocess_includes.lines (files : String → List SourceLine)
    (call : List SourceLine → List String → Nat → Option (Except PreprocessError Preprocessed)) :
    List SourceLine → Nat → Nat → List String → List OutputLine →
      Option (Except PreprocessError Preprocessed)
  | [], _, _, includes, output => some (.ok ⟨output, includes⟩)
  | .directive includeFile :: rest, lineNumber, depth, includes, output =>
    if includeFile.isEmpty then
      preprocess_includes.lines files call rest (lineNumber + 1) depth includes output
    else
      match call (files includeFile) (includes ++ [includeFile]) depth with
      | none => none
      | some (.error e) => some (.error e)
      | some (.ok included) =>
        preprocess_includes.lines files call rest (lineNumber + 1) (depth + 1)
          included.includes (output ++ included.output ++ [.blank])
  | .other text :: rest, lineNumber, depth, includes, output =>
    preprocess_includes.lines files call rest (lineNumber + 1) depth includes
      (output ++ [.line_directive lineNumber, .text text])

/-- The function `preprocess_includes(source, includeSearchPath, includes, depth)`. -/
def preprocess_includes (files : String → List SourceLine) :
    Nat → List SourceLine → List String → Nat → Option (Except PreprocessError Preprocessed)
  | 0, _, _, _ => none
  | fuel + 1, source, includes, depth =>
    if depth > 4 then some (.error .exceeded_max_include_recursion_depth)
    else preprocess_includes.lines files (preprocess_includes files fuel) source 1 depth includes []

/-- A table of files for the examples: `leaf.glsl` has one line and no include,
`self.glsl` includes itself, and `level0.glsl` to `level5.glsl` each include the
next, `level5.glsl` including `leaf.glsl`. -/
def example_files : String → List SourceLine
  | "self.glsl" => [.directive "self.glsl"]
  | "level0.glsl" => [.directive "level1.glsl"]
  | "level1.glsl" => [.directive "level2.glsl"]
  | "level2.glsl" => [.directive "level3.glsl"]
  | "level3.glsl" => [.directive "level4.glsl"]
  | "level4.glsl" => [.directive "level5.glsl"]
  | "level5.glsl" => [.directive "leaf.glsl"]
  | _ => [.other "void main();"]

/-! ## The type `float`: a model of binary32

The definitions of `float3`, `Bounds3D`, `Plane` and the box overloads of `Frustum` above
take any scalar type that has the operations they use. `F32` is the scalar type the
program runs them at. -/

/-- A finite value of the C++ type `float` (IEEE 754 binary32): the number
`mantissa * 2 ^ exponent`. Values are kept in normal form, the mantissa odd, or zero
with exponent zero, so that equal numbers are equal terms. The exponent is not bounded:
overflow to an infinity, subnormal numbers, the sign of zero and NaN are outside the
model, which agrees with binary32 wherever the operands and the result are zero or have
a magnitude in the normal range, from `2 ^ (-126)` up to `2 ^ 128`. -/
structure F32 where
  mantissa : Int
  exponent : Int
deriving DecidableEq

/-- The number of binary digits of `n`. `fuel` bounds the recursion; `n` itself is
enough. -/
def F32.bits : Nat → Nat → Nat
  | 0, _ => 0
  | fuel + 1, n => if n = 0 then 0 else F32.bits fuel (n / 2) + 1

/-- The normal form of `m * 2 ^ e`: factors of two move from the mantissa to the
exponent. `fuel` bounds the recursion; the magnitude of `m` is enough. -/
def F32.normal : Nat → Int → Int → F32
  | 0, _, _ => ⟨0, 0⟩
  | fuel + 1, m, e =>
    if m = 0 then ⟨0, 0⟩
    else if m % 2 = 0 then F32.normal fuel (m / 2) (e + 1)
    else ⟨m, e⟩

/-- Rounding to nearest, ties to even: the `float` nearest to the exact number
`m * 2 ^ e`. A magnitude of more than 24 binary digits loses its `k` low digits; the
remainder `r` decides the direction, and a remainder of exactly one half goes to the
even neighbour. -/
def F32.round (m e : Int) : F32 :=
  let n := m.natAbs
  let k := F32.bits n n - 24
  let q := n / 2 ^ k
  let r := n % 2 ^ k
  let q := if 2 * r > 2 ^ k ∨ (2 * r = 2 ^ k ∧ q % 2 = 1) then q + 1 else q
  F32.normal q (if m < 0 then -(q : Int) else (q : Int)) (e + (k : Int))

/-- The mantissas of `a` and of `b` over their common exponent, the lesser of the
two. -/
def F32.aligned (a b : F32) : Int × Int × Int :=
  let e := min a.exponent b.exponent
  (a.mantissa * ((2 ^ (a.exponent - e).toNat : Nat) : Int),
    b.mantissa * ((2 ^ (b.exponent - e).toNat : Nat) : Int), e)

/-- The sum `a + b` of two `float`: the exact sum, rounded. -/
def F32.add (a b : F32) : F32 :=
  let t := F32.aligned a b
  F32.round (t.1 + t.2.1) t.2.2

/-- The difference `a - b` of two `float`: the exact difference, rounded. -/
def F32.sub (a b : F32) : F32 :=
  let t := F32.aligned a b
  F32.round (t.1 - t.2.1) t.2.2

/-- The product `a * b` of two `float`: the exact product, rounded. -/
def F32.mul (a b : F32) : F32 :=
  F32.round (a.mantissa * b.mantissa) (a.exponent + b.exponent)

/-- The negation `-a`, which is exact. -/
def F32.neg (a : F32) : F32 := ⟨-a.mantissa, a.exponent⟩

/-- The comparison `a < b` of two `float`. -/
def F32.blt (a b : F32) : Bool :=
  let t := F32.aligned a b
  decide (t.1 < t.2.1)

/-- The comparison `a <= b` of two `float`. -/
def F32.ble (a b : F32) : Bool :=
  let t := F32.aligned a b
  decide (t.1 ≤ t.2.1)

/-- The `float` nearest to the quotient `n / d` of two natural numbers, `d` not zero:
the quotient is taken to at least 26 binary digits, a digit that records whether the
division left a remainder is appended, and the result is rounded. -/
def F32.ofRatio (n d : Nat) : F32 :=
  let k := (F32.bits d d + 26) - F32.bits n n
  let q := n * 2 ^ k / d
  let sticky := if n * 2 ^ k % d = 0 then 0 else 1
  F32.round ((2 * q + sticky : Nat) : Int) (-(k : Int) - 1)

/-- The number a `float` stands for. -/
def F32.toRat (a : F32) : ℚ := (a.mantissa : ℚ) * (2 : ℚ) ^ a.exponent

instance : Add F32 := ⟨F32.add⟩

instance : Sub F32 := ⟨F32.sub⟩

instance : Mul F32 := ⟨F32.mul⟩

instance : Neg F32 := ⟨F32.neg⟩

instance : Zero F32 := ⟨⟨0, 0⟩⟩

instance : LT F32 := ⟨fun a b => F32.blt a b = true⟩

instance : LE F32 := ⟨fun a b => F32.ble a b = true⟩

instance (a b : F32) : Decidable (a < b) := inferInstanceAs (Decidable (F32.blt a b = true))

instance (a b : F32) : Decidable (a ≤ b) := inferInstanceAs (Decidable (F32.ble a b = true))

/-- The `float` of an integer literal such as `100000000`. -/
instance (n : Nat) : OfNat F32 n := ⟨F32.round (n : Int) 0⟩

/-- The `float` of a decimal literal such as `0.5f`: the nearest `float`. -/
instance : OfScientific F32 :=
  ⟨fun m s e => if s then F32.ofRatio m (10 ^ e) else F32.round ((m * 10 ^ e : Nat) : Int) 0⟩

/-- The vector of the images of the three coordinates. -/
def float3.map {F G : Type} (g : F → G) (a : float3 F) : float3 G := ⟨g a.x, g a.y, g a.z⟩

/-- The frustum whose six planes have the normals the default constructor `Frustum()`
gives them, (-1,0,0), (1,0,0), (0,1,0), (0,-1,0), (0,0,1) and (0,0,-1) in the order of
the subscripts, and the six given distances: the block
`-left <= x <= right`, `-bottom <= y <= top`, `-near <= z <= far`. -/
def Frustum.block {F : Type} [Zero F] [One F] [Neg F] (right left bottom top near far : F) :
    Frustum F where
  planes
    | .RIGHT => Plane.ofNormalDistance ⟨-1, 0, 0⟩ right
    | .LEFT => Plane.ofNormalDistance ⟨1, 0, 0⟩ left
    | .BOTTOM => Plane.ofNormalDistance ⟨0, 1, 0⟩ bottom
    | .TOP => Plane.ofNormalDistance ⟨0, -1, 0⟩ top
    | .NEAR => Plane.ofNormalDistance ⟨0, 0, 1⟩ near
    | .FAR => Plane.ofNormalDistance ⟨0, 0, -1⟩ far

end Definitions

section Theorems

variable {K : Type} [LinearOrderedField K]

/-! ## Helper lemmas -/

/-- The loop returns true exactly when no visited plane rejects. -/
theorem none_rejects_iff (reject : FrustumPlane → Bool) (ps : List FrustumPlane) :
    Frustum.none_rejects reject ps = true ↔ ∀ p ∈ ps, reject p = false := by
  induction ps with
  | nil => simp [Frustum.none_rejects]
  | cons q rest ih =>
    simp only [Frustum.none_rejects, List.mem_cons, forall_eq_or_imp]
    cases h : reject q <;> simp [ih]

/-- Every subscript is visited by the loop. -/
theorem mem_order (p : FrustumPlane) : p ∈ FrustumPlane.order := by
  cases p <;> simp [FrustumPlane.order]

/-- A square root of one is one. -/
theorem IsSqrt.sqrt_one {sqrt : K → K} (hs : IsSqrt sqrt) : sqrt 1 = 1 := by
  obtain ⟨h0, h1⟩ := hs 1 zero_le_one
  have h : (sqrt 1 - 1) * (sqrt 1 + 1) = 0 := by ring_nf; nlinarith
  rcases mul_eq_zero.mp h with h | h
  · linarith
  · linarith

/-- A square root of a positive number is positive. -/
theorem IsSqrt.sqrt_pos {sqrt : K → K} (hs : IsSqrt sqrt) {x : K} (hx : 0 < x) : 0 < sqrt x := by
  obtain ⟨h0, h1⟩ := hs x hx.le
  rcases h0.eq_or_lt with h | h
  · rw [← h] at h1; simp at h1; linarith
  · exact h

/-- The real square root meets the assumption made of `std::sqrt`. -/
theorem isSqrt_real : IsSqrt Real.sqrt := fun x hx =>
  ⟨Real.sqrt_nonneg x, Real.mul_self_sqrt hx⟩

/-- A squared length is never negative. -/
theorem length2_nonneg (a : float3 K) : 0 ≤ length2 a := by
  simp only [length2, dot]
  nlinarith [mul_self_nonneg a.x, mul_self_nonneg a.y, mul_self_nonneg a.z]

/-- A non-zero vector has positive squared length. -/
theorem length2_pos {a : float3 K} (ha : a ≠ ⟨0, 0, 0⟩) : 0 < length2 a := by
  rcases (length2_nonneg a).eq_or_lt with h | h
  · exfalso
    apply ha
    simp only [length2, dot] at h
    have hx : a.x = 0 := by
      nlinarith [mul_self_nonneg a.x, mul_self_nonneg a.y, mul_self_nonneg a.z]
    have hy : a.y = 0 := by
      nlinarith [mul_self_nonneg a.x, mul_self_nonneg a.y, mul_self_nonneg a.z]
    have hz : a.z = 0 := by
      nlinarith [mul_self_nonneg a.x, mul_self_nonneg a.y, mul_self_nonneg a.z]
    obtain ⟨x, y, z⟩ := a
    simp only at hx hy hz
    rw [hx, hy, hz]
  · exact h

/-- A vector has length 1 exactly when its squared length is 1. -/
theorem length_eq_one_iff {sqrt : K → K} (hs : IsSqrt sqrt) (a : float3 K) :
    length sqrt a = 1 ↔ length2 a = 1 := by
  constructor
  · intro h
    have := (hs _ (length2_nonneg a)).2
    simp only [length] at h
    rw [h] at this
    linarith
  · intro h
    simp only [length, h, hs.sqrt_one]

/-- Normalizing a plane with non-zero normal leaves a normal of squared length 1. -/
theorem length2_normalize {sqrt : K → K} (hs : IsSqrt sqrt) (p : Plane K)
    (hn : p.get_normal ≠ ⟨0, 0, 0⟩) : length2 (p.normalize sqrt).get_normal = 1 := by
  have hpos := length2_pos hn
  have hr := hs.sqrt_pos hpos
  have hsq := (hs _ hpos.le).2
  simp only [Plane.normalize, Plane.get_normal, float4.scale, float4.xyz, length, length2, dot]
    at hpos hr hsq ⊢
  field_simp
  linarith

/-- The box the two box overloads of `Frustum` build has the bounds
`center - size/2` and `center + size/2`. -/
theorem frustum_box_bounds (center size : float3 K) :
    center.sub (size.scale 0.5)
        = ⟨center.x - size.x / 2, center.y - size.y / 2, center.z - size.z / 2⟩ ∧
      center.add (size.scale 0.5)
        = ⟨center.x + size.x / 2, center.y + size.y / 2, center.z + size.z / 2⟩ := by
  simp only [float3.sub, float3.add, float3.scale, float3.mk.injEq]
  norm_num
  refine ⟨?_, ?_, ?_⟩ <;> ring

/-- The corner `get_positive` picks, axis by axis. -/
theorem get_positive_eq (b : Bounds3D K) (n : float3 K) :
    b.get_positive n =
      ⟨if 0 < n.x then b._min.x + (b._max.x - b._min.x) else b._min.x,
       if 0 < n.y then b._min.y + (b._max.y - b._min.y) else b._min.y,
       if 0 < n.z then b._min.z + (b._max.z - b._min.z) else b._min.z⟩ := by
  simp only [Bounds3D.get_positive, Bounds3D.min, Bounds3D.size, float3.sub, gt_iff_lt]
  split_ifs <;> rfl

/-- The corner `get_negative` picks, axis by axis. -/
theorem get_negative_eq (b : Bounds3D K) (n : float3 K) :
    b.get_negative n =
      ⟨if n.x < 0 then b._min.x + (b._max.x - b._min.x) else b._min.x,
       if n.y < 0 then b._min.y + (b._max.y - b._min.y) else b._min.y,
       if n.z < 0 then b._min.z + (b._max.z - b._min.z) else b._min.z⟩ := by
  simp only [Bounds3D.get_negative, Bounds3D.min, Bounds3D.size, float3.sub]
  split_ifs <;> rfl

/-- On one axis the coordinate `get_positive` picks maximizes `n * q` over `[lo, hi]`. -/
theorem axis_le_positive (n lo hi q : K) (h1 : lo ≤ q) (h2 : q ≤ hi) :
    n * q ≤ n * (if 0 < n then lo + (hi - lo) else lo) := by
  split_ifs with h
  · exact mul_le_mul_of_nonneg_left (by linarith) h.le
  · exact mul_le_mul_of_nonpos_left h1 (not_lt.mp h)

/-- On one axis the coordinate `get_negative` picks minimizes `n * q` over `[lo, hi]`. -/
theorem axis_negative_le (n lo hi q : K) (h1 : lo ≤ q) (h2 : q ≤ hi) :
    n * (if n < 0 then lo + (hi - lo) else lo) ≤ n * q := by
  split_ifs with h
  · exact mul_le_mul_of_nonpos_left (by linarith) h.le
  · exact mul_le_mul_of_nonneg_left h1 (not_lt.mp h)

/-- No point of the box is farther along the plane normal than `get_positive`. -/
theorem distance_to_le_get_positive (pl : Plane K) (center size q : float3 K)
    (hq : InBox center size q) :
    pl.distance_to q ≤ pl.distance_to
      ((⟨center.sub (size.scale 0.5), center.add (size.scale 0.5)⟩ : Bounds3D K).get_positive
        pl.get_normal) := by
  obtain ⟨⟨hx1, hx2⟩, ⟨hy1, hy2⟩, ⟨hz1, hz2⟩⟩ := hq
  rw [get_positive_eq, (frustum_box_bounds center size).1, (frustum_box_bounds center size).2]
  simp only [Plane.distance_to, dot]
  have hx := axis_le_positive pl.get_normal.x _ _ _ hx1 hx2
  have hy := axis_le_positive pl.get_normal.y _ _ _ hy1 hy2
  have hz := axis_le_positive pl.get_normal.z _ _ _ hz1 hz2
  linarith

/-- No point of the box is nearer along the plane normal than `get_negative`. -/
theorem get_negative_le_distance_to (pl : Plane K) (center size q : float3 K)
    (hq : InBox center size q) :
    pl.distance_to
      ((⟨center.sub (size.scale 0.5), center.add (size.scale 0.5)⟩ : Bounds3D K).get_negative
        pl.get_normal) ≤ pl.distance_to q := by
  obtain ⟨⟨hx1, hx2⟩, ⟨hy1, hy2⟩, ⟨hz1, hz2⟩⟩ := hq
  rw [get_negative_eq, (frustum_box_bounds center size).1, (frustum_box_bounds center size).2]
  simp only [Plane.distance_to, dot]
  have hx := axis_negative_le pl.get_normal.x _ _ _ hx1 hx2
  have hy := axis_negative_le pl.get_normal.y _ _ _ hy1 hy2
  have hz := axis_negative_le pl.get_normal.z _ _ _ hz1 hz2
  linarith

/-- A corner of a box of non-negative size lies in the box. -/
theorem inBox_of_mem_corners (center size q : float3 K)
    (hs : 0 ≤ size.x ∧ 0 ≤ size.y ∧ 0 ≤ size.z) (hq : q ∈ box_corners center size) :
    InBox center size q := by
  obtain ⟨hx, hy, hz⟩ := hs
  simp only [box_corners, List.mem_cons, List.mem_singleton, List.not_mem_nil, or_false] at hq
  rcases hq with h | h | h | h | h | h | h | h <;> subst h <;>
    simp only [InBox] <;> refine ⟨⟨?_, ?_⟩, ⟨?_, ?_⟩, ?_, ?_⟩ <;> linarith

/-- The point `get_positive` returns is one of the eight corners. -/
theorem get_positive_mem_corners (center size n : float3 K) :
    (⟨center.sub (size.scale 0.5), center.add (size.scale 0.5)⟩ : Bounds3D K).get_positive n
      ∈ box_corners center size := by
  rw [get_positive_eq, (frustum_box_bounds center size).1, (frustum_box_bounds center size).2]
  simp only [box_corners, List.mem_cons, List.mem_singleton, float3.mk.injEq]
  split_ifs <;> simp <;> ring_nf <;> simp

/-- The point `get_negative` returns is one of the eight corners. -/
theorem get_negative_mem_corners (center size n : float3 K) :
    (⟨center.sub (size.scale 0.5), center.add (size.scale 0.5)⟩ : Bounds3D K).get_negative n
      ∈ box_corners center size := by
  rw [get_negative_eq, (frustum_box_bounds center size).1, (frustum_box_bounds center size).2]
  simp only [box_corners, List.mem_cons, List.mem_singleton, float3.mk.injEq]
  split_ifs <;> simp <;> ring_nf <;> simp

/-- The unit box at the origin passes the box overload of `contains` of the default
frustum. -/
theorem default_contains_unit_box :
    (Frustum.default : Frustum ℚ).contains_box ⟨0, 0, 0⟩ ⟨1, 1, 1⟩ = true := by
  simp [Frustum.contains_box, Frustum.none_rejects, FrustumPlane.order, Frustum.default,
    Plane.distance_to, Bounds3D.get_positive, Bounds3D.get_negative, Plane.get_normal,
    Plane.ofNormalDistance, float4.xyz, dot, Bounds3D.min, Bounds3D.size, float3.sub,
    float3.add, float3.scale]
  norm_num

section ModelBinary32

set_option maxRecDepth 4000

/-- The model `F32` reproduces known values of binary32: the literals `0.1f`, which is
0x3DCCCCCD, and `3.14159265f`, which is 0x40490FDB, and the quotient 1/3, which is
0x3EAAAAAB; `0.1f + 0.2f` is `0.3f`; the sum 16777216 + 1 is a tie and goes to the
even neighbour 16777216, the sum 16777218 + 1 to the even neighbour 16777220; the
integers 100000001 and 100000004 round to 100000000, and 100000012 to 100000016. -/
theorem F32.known_values :
    ((0.1 : F32) = ⟨13421773, -27⟩ ∧ (3.14159265 : F32) = ⟨13176795, -22⟩ ∧
      F32.ofRatio 1 3 = ⟨11184811, -25⟩) ∧
    ((0.1 : F32) + 0.2 = 0.3 ∧ (3.14159265 : F32) * 3.14159265 = ⟨10349031, -20⟩) ∧
    ((16777216 : F32) + 1 = 16777216 ∧ (16777218 : F32) + 1 = 16777220) ∧
    ((100000001 : F32) = 100000000 ∧ (100000004 : F32) = 100000000 ∧
      (100000012 : F32) = 100000016) := by
  refine ⟨⟨?_, ?_, ?_⟩, ⟨?_, ?_⟩, ⟨?_, ?_⟩, ?_, ?_, ?_⟩ <;> decide

end ModelBinary32

/-! ## C1: box containment implies box intersection -/

/-- C1: for every frustum, center and size, if the box overload of `contains` returns
true then the box overload of `intersects` returns true. -/
theorem contains_box_imp_intersects_box (f : Frustum K) (center size : float3 K)
    (h : f.contains_box center size = true) : f.intersects_box center size = true := by
  simp only [Frustum.contains_box, Frustum.intersects_box, none_rejects_iff] at h ⊢
  intro p hp
  have hq := h p hp
  by_contra hne
  simp only [decide_eq_false_iff_not, not_not] at hne
  simp [hne] at hq

/-- C1 at the default frustum and the unit box at the origin: the box is contained, and
so it intersects. -/
theorem contains_box_imp_intersects_box_witness :
    (Frustum.default : Frustum ℚ).contains_box ⟨0, 0, 0⟩ ⟨1, 1, 1⟩ = true ∧
      (Frustum.default : Frustum ℚ).intersects_box ⟨0, 0, 0⟩ ⟨1, 1, 1⟩ = true :=
  ⟨default_contains_unit_box,
    contains_box_imp_intersects_box _ _ _ default_contains_unit_box⟩

/-! ## C2: the extracted planes -/

/-- C2: with `clip = viewProj * (p, 1)`, the six planes the constructor extracts, before
it normalizes them, measure `clip.w - clip.x` (RIGHT), `clip.w + clip.x` (LEFT),
`clip.w + clip.y` (BOTTOM), `clip.w - clip.y` (TOP), `clip.w + clip.z` (NEAR) and
`clip.w - clip.z` (FAR) at `p`; their equations are row 3 of the matrix minus or plus
row 0, 1 or 2 with these signs. -/
theorem extract_distance_to (m : float4x4 K) (p : float3 K) :
    (((Frustum.extract m).planes .RIGHT).distance_to p
        = (m.mulVec ⟨p.x, p.y, p.z, 1⟩).w - (m.mulVec ⟨p.x, p.y, p.z, 1⟩).x ∧
      ((Frustum.extract m).planes .LEFT).distance_to p
        = (m.mulVec ⟨p.x, p.y, p.z, 1⟩).w + (m.mulVec ⟨p.x, p.y, p.z, 1⟩).x ∧
      ((Frustum.extract m).planes .BOTTOM).distance_to p
        = (m.mulVec ⟨p.x, p.y, p.z, 1⟩).w + (m.mulVec ⟨p.x, p.y, p.z, 1⟩).y ∧
      ((Frustum.extract m).planes .TOP).distance_to p
        = (m.mulVec ⟨p.x, p.y, p.z, 1⟩).w - (m.mulVec ⟨p.x, p.y, p.z, 1⟩).y ∧
      ((Frustum.extract m).planes .NEAR).distance_to p
        = (m.mulVec ⟨p.x, p.y, p.z, 1⟩).w + (m.mulVec ⟨p.x, p.y, p.z, 1⟩).z ∧
      ((Frustum.extract m).planes .FAR).distance_to p
        = (m.mulVec ⟨p.x, p.y, p.z, 1⟩).w - (m.mulVec ⟨p.x, p.y, p.z, 1⟩).z) ∧
    (((Frustum.extract m).planes .RIGHT).equation = (m.row 3).sub (m.row 0) ∧
      ((Frustum.extract m).planes .LEFT).equation = (m.row 3).add (m.row 0) ∧
      ((Frustum.extract m).planes .BOTTOM).equation = (m.row 3).add (m.row 1) ∧
      ((Frustum.extract m).planes .TOP).equation = (m.row 3).sub (m.row 1) ∧
      ((Frustum.extract m).planes .NEAR).equation = (m.row 3).add (m.row 2) ∧
      ((Frustum.extract m).planes .FAR).equation = (m.row 3).sub (m.row 2)) := by
  constructor
  · simp only [Frustum.extract, Plane.distance_to, Plane.get_normal, float4.xyz, float4.ofFn,
      float4x4.mulVec, float4x4.col, float4.get, dot]
    refine ⟨?_, ?_, ?_, ?_, ?_, ?_⟩ <;> ring
  · simp [Frustum.extract, float4x4.row, float4.ofFn, float4.sub, float4.add]

/-! ## C3: the planes of `Frustum(viewProj)` -/

/-- In exact arithmetic, over an ordered field, box culling is conservative: for a box
of non-negative size, if some point of the box `[center - size/2, center + size/2]`
has non-negative distance to all six planes, the box overload of `intersects` returns
true; and it returns false only when, for some plane, all eight corners have negative
distance. The proof rests on `min + (max - min) = max`, which rounding breaks. -/
theorem intersects_box_conservative_exact (f : Frustum K) (center size : float3 K)
    (hs : 0 ≤ size.x ∧ 0 ≤ size.y ∧ 0 ≤ size.z) :
    ((∃ q, InBox center size q ∧ ∀ p, 0 ≤ (f.planes p).distance_to q) →
        f.intersects_box center size = true) ∧
      (f.intersects_box center size = false →
        ∃ p, ∀ q ∈ box_corners center size, (f.planes p).distance_to q < 0) := by
  constructor
  · rintro ⟨q, hq, hall⟩
    simp only [Frustum.intersects_box, none_rejects_iff, decide_eq_false_iff_not, not_lt]
    intro p _
    exact (hall p).trans (distance_to_le_get_positive (f.planes p) center size q hq)
  · intro h
    have h2 : ¬ f.intersects_box center size = true := by simp [h]
    simp only [Frustum.intersects_box, none_rejects_iff, decide_eq_false_iff_not, not_lt,
      not_forall, not_le] at h2
    obtain ⟨p, _, hp⟩ := h2
    refine ⟨p, fun q hq => lt_of_le_of_lt ?_ hp⟩
    exact distance_to_le_get_positive (f.planes p) center size q
      (inBox_of_mem_corners center size q hs hq)

/-- The exact statement at the default frustum and a box that straddles its RIGHT
plane: the point (1/2, 0, 0) of the box is on the inner side of all six planes, so the
box is kept. -/
theorem intersects_box_conservative_exact_witness :
    (0 ≤ (3 : ℚ) ∧ 0 ≤ (1 : ℚ) ∧ 0 ≤ (1 : ℚ)) ∧
      (Frustum.default : Frustum ℚ).intersects_box ⟨2, 0, 0⟩ ⟨3, 1, 1⟩ = true :=
  ⟨by norm_num,
    (intersects_box_conservative_exact (Frustum.default : Frustum ℚ) ⟨2, 0, 0⟩ ⟨3, 1, 1⟩
      (by norm_num)).1
      ⟨⟨1 / 2, 0, 0⟩, by norm_num [InBox], fun p => by
        cases p <;>
          norm_num [Frustum.default, Plane.distance_to, Plane.get_normal,
            Plane.ofNormalDistance, float4.xyz, dot]⟩⟩

section CullingBinary32

set_option maxRecDepth 4000

/-- C4 fails in `float` arithmetic, in which `min() + size()` of `get_positive` need not
be the coordinate of `_max`. First input: the box of center (-50000000, 0, 0) and size
(100000008, 2, 2) reaches from x = -100000004 to x = 4, and its point (4, 0, 0) has
distances 6, 2, 5, 5, 5, 5 to the planes of the block `2 <= x <= 10`, `-5 <= y, z <= 5`;
the program builds the box from (-100000000, -1, -1) to (4, 1, 1), `get_positive`
returns x = -100000000 + 100000000 = 0 for the LEFT plane, whose distance is then -2,
and `intersects` returns false, although every plane has a corner of the box at
non-negative distance. Second input, at ordinary scale: the box of center
(-2.1007318, 0, 0) and size (4.0045438, 2, 2) meets the block `-0.09845996 <= x <= 10`
in its face x = -0.09845996, and `intersects` returns false. -/
theorem intersects_box_rejects_visible_box :
    (((0 : F32) ≤ 100000008 ∧ (0 : F32) ≤ 2) ∧
      InBox ((⟨-50000000, 0, 0⟩ : float3 F32).map F32.toRat)
        ((⟨100000008, 2, 2⟩ : float3 F32).map F32.toRat)
        ((⟨4, 0, 0⟩ : float3 F32).map F32.toRat) ∧
      (∀ p ∈ FrustumPlane.order,
        0 < ((Frustum.block 10 (-2) 5 5 5 5 : Frustum F32).planes p).distance_to ⟨4, 0, 0⟩) ∧
      (Frustum.block 10 (-2) 5 5 5 5 : Frustum F32).intersects_box
        ⟨-50000000, 0, 0⟩ ⟨100000008, 2, 2⟩ = false ∧
      ∀ p ∈ FrustumPlane.order,
        ∃ x ∈ (⟨(⟨-50000000, 0, 0⟩ : float3 F32).sub ((⟨100000008, 2, 2⟩ : float3 F32).scale 0.5),
            (⟨-50000000, 0, 0⟩ : float3 F32).add ((⟨100000008, 2, 2⟩ : float3 F32).scale 0.5)⟩ :
              Bounds3D F32).corners,
          0 ≤ ((Frustum.block 10 (-2) 5 5 5 5 : Frustum F32).planes p).distance_to x) ∧
    (((0 : F32) ≤ 4.0045438 ∧ (0 : F32) ≤ 2) ∧
      InBox ((⟨-2.1007318, 0, 0⟩ : float3 F32).map F32.toRat)
        ((⟨4.0045438, 2, 2⟩ : float3 F32).map F32.toRat)
        ((⟨-0.09845996, 0, 0⟩ : float3 F32).map F32.toRat) ∧
      (∀ p ∈ FrustumPlane.order,
        0 ≤ ((Frustum.block 10 0.09845996 5 5 5 5 : Frustum F32).planes p).distance_to
          ⟨-0.09845996, 0, 0⟩) ∧
      (Frustum.block 10 0.09845996 5 5 5 5 : Frustum F32).intersects_box
        ⟨-2.1007318, 0, 0⟩ ⟨4.0045438, 2, 2⟩ = false ∧
      ∀ p ∈ FrustumPlane.order,
        ∃ x ∈ (⟨(⟨-2.1007318, 0, 0⟩ : float3 F32).sub ((⟨4.0045438, 2, 2⟩ : float3 F32).scale 0.5),
            (⟨-2.1007318, 0, 0⟩ : float3 F32).add ((⟨4.0045438, 2, 2⟩ : float3 F32).scale 0.5)⟩ :
              Bounds3D F32).corners,
          0 ≤ ((Frustum.block 10 0.09845996 5 5 5 5 : Frustum F32).planes p).distance_to x) := by
  have c1 : (⟨-50000000, 0, 0⟩ : float3 F32) = ⟨⟨-390625, 7⟩, ⟨0, 0⟩, ⟨0, 0⟩⟩ := by decide
  have s1 : (⟨100000008, 2, 2⟩ : float3 F32) = ⟨⟨12500001, 3⟩, ⟨1, 1⟩, ⟨1, 1⟩⟩ := by decide
  have q1 : (⟨4, 0, 0⟩ : float3 F32) = ⟨⟨1, 2⟩, ⟨0, 0⟩, ⟨0, 0⟩⟩ := by decide
  have c2 : (⟨-2.1007318, 0, 0⟩ : float3 F32) = ⟨⟨-2202777, -20⟩, ⟨0, 0⟩, ⟨0, 0⟩⟩ := by decide
  have s2 : (⟨4.0045438, 2, 2⟩ : float3 F32) = ⟨⟨8398137, -21⟩, ⟨1, 1⟩, ⟨1, 1⟩⟩ := by decide
  have q2 : (⟨-0.09845996, 0, 0⟩ : float3 F32) = ⟨⟨-412971, -22⟩, ⟨0, 0⟩, ⟨0, 0⟩⟩ := by decide
  refine ⟨⟨?_, ?_, ?_, ?_, ?_⟩, ?_, ?_, ?_, ?_, ?_⟩
  · decide
  · rw [c1, s1, q1]
    norm_num [InBox, float3.map, F32.toRat]
  · decide
  · decide
  · decide
  · decide
  · rw [c2, s2, q2]
    norm_num [InBox, float3.map, F32.toRat]
  · decide
  · decide
  · decide

end CullingBinary32

/-! ## C5: box containment is containment of the eight corners -/

/-- In exact arithmetic, over an ordered field: for a box of non-negative size, the box
overload of `contains` returns true if and only if all eight corners of
`[center - size/2, center + size/2]` have non-negative distance to each of the six
planes. The proof rests on `min + (max - min) = max`, which rounding breaks. -/
theorem contains_box_iff_corners_inside_exact (f : Frustum K) (center size : float3 K)
    (hs : 0 ≤ size.x ∧ 0 ≤ size.y ∧ 0 ≤ size.z) :
    f.contains_box center size = true ↔
      ∀ p, ∀ q ∈ box_corners center size, 0 ≤ (f.planes p).distance_to q := by
  simp only [Frustum.contains_box, none_rejects_iff]
  constructor
  · intro h p q hq
    have hp := h p (mem_order p)
    by_contra hneg
    have hlt := lt_of_le_of_lt
      (get_negative_le_distance_to (f.planes p) center size q
        (inBox_of_mem_corners center size q hs hq)) (not_le.mp hneg)
    simp [hlt] at hp
  · intro h p _
    have h1 := h p _ (get_positive_mem_corners center size (f.planes p).get_normal)
    have h2 := h p _ (get_negative_mem_corners center size (f.planes p).get_normal)
    simp [not_lt.mpr h1, not_lt.mpr h2]

/-- The exact statement at the default frustum and the unit box at the origin: the box
is contained, so its eight corners are on the inner side of all six planes. -/
theorem contains_box_iff_corners_inside_exact_witness :
    (0 ≤ (1 : ℚ) ∧ 0 ≤ (1 : ℚ) ∧ 0 ≤ (1 : ℚ)) ∧
      ∀ p, ∀ q ∈ box_corners (⟨0, 0, 0⟩ : float3 ℚ) ⟨1, 1, 1⟩,
        0 ≤ ((Frustum.default : Frustum ℚ).planes p).distance_to q :=
  ⟨by norm_num,
    (contains_box_iff_corners_inside_exact (Frustum.default : Frustum ℚ) ⟨0, 0, 0⟩ ⟨1, 1, 1⟩
      (by norm_num)).mp default_contains_unit_box⟩

section ContainmentBinary32

set_option maxRecDepth 4000

/-- C5 fails in `float` arithmetic, in which `min() + size()` of `get_negative` need not
be the coordinate of `_max`. First input: the box of center (-50000000, 0, 0) and size
(100000008, 2, 2) has the corner (4, -1, -1), which is at distance -2 from the RIGHT
plane `x <= 2` of the block `-200000000 <= x <= 2`, `-5 <= y, z <= 5`; for that plane
`get_negative` returns x = -100000000 + 100000000 = 0, at distance 2, and `contains`
returns true. Second input, at ordinary scale: the box of center (-2.1007318, 0, 0)
and size (4.0045438, 2, 2) has the corner (-0.09845996, -1, -1) beyond the RIGHT plane
`x <= -0.0984602` of the block, and `contains` returns true. -/
theorem contains_box_accepts_corner_outside :
    (((0 : F32) ≤ 100000008 ∧ (0 : F32) ≤ 2) ∧
      (Frustum.block 2 200000000 5 5 5 5 : Frustum F32).contains_box
        ⟨-50000000, 0, 0⟩ ⟨100000008, 2, 2⟩ = true ∧
      (⟨4, -1, -1⟩ : float3 F32).map F32.toRat ∈
        box_corners ((⟨-50000000, 0, 0⟩ : float3 F32).map F32.toRat)
          ((⟨100000008, 2, 2⟩ : float3 F32).map F32.toRat) ∧
      ((Frustum.block 2 200000000 5 5 5 5 : Frustum F32).planes .RIGHT).distance_to
        ⟨4, -1, -1⟩ < 0) ∧
    (((0 : F32) ≤ 4.0045438 ∧ (0 : F32) ≤ 2) ∧
      (Frustum.block (-0.0984602) 10 5 5 5 5 : Frustum F32).contains_box
        ⟨-2.1007318, 0, 0⟩ ⟨4.0045438, 2, 2⟩ = true ∧
      (⟨-0.09845996, -1, -1⟩ : float3 F32).map F32.toRat ∈
        box_corners ((⟨-2.1007318, 0, 0⟩ : float3 F32).map F32.toRat)
          ((⟨4.0045438, 2, 2⟩ : float3 F32).map F32.toRat) ∧
      ((Frustum.block (-0.0984602) 10 5 5 5 5 : Frustum F32).planes .RIGHT).distance_to
        ⟨-0.09845996, -1, -1⟩ < 0) := by
  have c1 : (⟨-50000000, 0, 0⟩ : float3 F32) = ⟨⟨-390625, 7⟩, ⟨0, 0⟩, ⟨0, 0⟩⟩ := by decide
  have s1 : (⟨100000008, 2, 2⟩ : float3 F32) = ⟨⟨12500001, 3⟩, ⟨1, 1⟩, ⟨1, 1⟩⟩ := by decide
  have q1 : (⟨4, -1, -1⟩ : float3 F32) = ⟨⟨1, 2⟩, ⟨-1, 0⟩, ⟨-1, 0⟩⟩ := by decide
  have c2 : (⟨-2.1007318, 0, 0⟩ : float3 F32) = ⟨⟨-2202777, -20⟩, ⟨0, 0⟩, ⟨0, 0⟩⟩ := by decide
  have s2 : (⟨4.0045438, 2, 2⟩ : float3 F32) = ⟨⟨8398137, -21⟩, ⟨1, 1⟩, ⟨1, 1⟩⟩ := by decide
  have q2 : (⟨-0.09845996, -1, -1⟩ : float3 F32) = ⟨⟨-412971, -22⟩, ⟨-1, 0⟩, ⟨-1, 0⟩⟩ := by
    decide
  refine ⟨⟨?_, ?_, ?_, ?_⟩, ?_, ?_, ?_, ?_⟩
  · decide
  · decide
  · rw [c1, s1, q1]
    norm_num [box_corners, float3.map, F32.toRat]
  · decide
  · decide
  · decide
  · rw [c2, s2, q2]
    norm_num [box_corners, float3.map, F32.toRat]
  · decide

end ContainmentBinary32

/-! ## C6: sphere containment and sphere intersection -/

/-- C6 fails at radius 0: for the default frustum and the point (1, 0, 0) of its RIGHT
plane, every distance is at least 0, so the sphere overload of `contains` returns
true, while the distance 0 to the RIGHT plane is `<= -0`, so the sphere overload of
`intersects` returns false. -/
theorem contains_sphere_not_intersects_sphere :
    (Frustum.default : Frustum ℚ).contains_sphere ⟨1, 0, 0⟩ 0 = true ∧
      (Frustum.default : Frustum ℚ).intersects_sphere ⟨1, 0, 0⟩ 0 = false := by
  simp [Frustum.contains_sphere, Frustum.intersects_sphere, Frustum.none_rejects,
    FrustumPlane.order, Frustum.default, Plane.distance_to, Plane.get_normal,
    Plane.ofNormalDistance, float4.xyz, dot]

/-- Away from that boundary the implication holds: for a positive radius, or a radius 0
and a center on none of the six planes, a contained sphere intersects. -/
theorem contains_sphere_imp_intersects_sphere (f : Frustum K) (center : float3 K) (radius : K)
    (hr : 0 < radius ∨ (0 ≤ radius ∧ ∀ p, (f.planes p).distance_to center ≠ 0))
    (h : f.contains_sphere center radius = true) :
    f.intersects_sphere center radius = true := by
  simp only [Frustum.contains_sphere, Frustum.intersects_sphere, none_rejects_iff,
    decide_eq_false_iff_not, not_lt, not_le] at h ⊢
  intro p hp
  have hq := h p hp
  rcases hr with hr | ⟨hr, hne⟩
  · linarith
  · rcases (hr.trans hq).eq_or_lt with h0 | h0
    · exact absurd h0.symm (hne p)
    · linarith

/-! ## C7 and C8: `compute_enclosing_sphere` -/

/-- The Cauchy-Schwarz inequality for `dot`. -/
theorem dot_mul_self_le (a b : float3 K) : dot a b * dot a b ≤ length2 a * length2 b := by
  simp only [dot, length2]
  nlinarith [mul_self_nonneg (a.x * b.y - a.y * b.x), mul_self_nonneg (a.x * b.z - a.z * b.x),
    mul_self_nonneg (a.y * b.z - a.z * b.y)]

/-- For non-negative `x` and `y`, `x * x ≤ y * y` gives `x ≤ y`. -/
theorem le_of_mul_self_le {x y : K} (hy : 0 ≤ y) (h : x * x ≤ y * y) : x ≤ y := by
  by_contra hlt
  have := mul_self_lt_mul_self hy (not_le.mp hlt)
  linarith

/-- A step of the first pass keeps the radius positive. -/
theorem grow_radius_pos {sqrt : K → K} (hs : IsSqrt sqrt) (s : Sphere K) (v : float3 K)
    (hr : 0 < s.radius) : 0 < (compute_enclosing_sphere.grow sqrt s v).radius := by
  simp only [compute_enclosing_sphere.grow]
  split_ifs with h
  · have hpos : 0 < length2 (v.sub s.center) := lt_of_le_of_lt (mul_self_nonneg _) h
    have hd := hs.sqrt_pos hpos
    have hp : 0 < sqrt (length2 (v.sub s.center)) / s.radius := div_pos hd hr
    show 0 < 0.5 * (sqrt (length2 (v.sub s.center)) / s.radius
      + 1 / (sqrt (length2 (v.sub s.center)) / s.radius)) * s.radius
    have h5 : (0 : K) < 0.5 := by norm_num
    positivity
  · exact hr

/-- The first pass over the vertices keeps the radius positive. -/
theorem foldl_grow_radius_pos {sqrt : K → K} (hs : IsSqrt sqrt) (vs : List (float3 K)) :
    ∀ s : Sphere K, 0 < s.radius →
      0 < (vs.foldl (compute_enclosing_sphere.grow sqrt) s).radius := by
  induction vs with
  | nil => intro s hr; exact hr
  | cons v rest ih => intro s hr; exact ih _ (grow_radius_pos hs s v hr)

/-- A step of the closing pass keeps the radius positive, encloses its vertex and keeps
enclosed every point that was. -/
theorem repair_encloses {sqrt : K → K} (hs : IsSqrt sqrt) (s : Sphere K) (v : float3 K)
    (hr : 0 < s.radius) :
    0 < (compute_enclosing_sphere.repair sqrt s v).radius ∧
      length2 (v.sub (compute_enclosing_sphere.repair sqrt s v).center)
        ≤ (compute_enclosing_sphere.repair sqrt s v).radius
          * (compute_enclosing_sphere.repair sqrt s v).radius ∧
      ∀ u : float3 K, length2 (u.sub s.center) ≤ s.radius * s.radius →
        length2 (u.sub (compute_enclosing_sphere.repair sqrt s v).center)
          ≤ (compute_enclosing_sphere.repair sqrt s v).radius
            * (compute_enclosing_sphere.repair sqrt s v).radius := by
  simp only [compute_enclosing_sphere.repair]
  split_ifs with h
  · have hpos : 0 < length2 (v.sub s.center) := lt_of_le_of_lt (mul_self_nonneg _) h
    have hd := hs.sqrt_pos hpos
    have hdd := (hs _ hpos.le).2
    set d := sqrt (length2 (v.sub s.center)) with hd_def
    have hrd : s.radius < d := by
      by_contra hle
      have := mul_self_le_mul_self hd.le (not_lt.mp hle)
      linarith
    set t := (d - (s.radius + d) / 2) / d with ht_def
    have htd : t * d = d - (s.radius + d) / 2 := by
      rw [ht_def]; field_simp
      ring
    have ht0 : 0 ≤ t := by
      rw [ht_def]; apply div_nonneg _ hd.le; linarith
    have hcenter : ∀ u : float3 K,
        length2 (u.sub (s.center.add
          (((v.sub s.center).scale (d - (s.radius + d) / 2)).divide d)))
        = length2 (u.sub s.center) - 2 * t * dot (u.sub s.center) (v.sub s.center)
          + (t * d) * (t * d) := by
      intro u
      have e : (t * d) * (t * d) = t * t * length2 (v.sub s.center) := by rw [← hdd]; ring
      rw [e]
      simp only [length2, dot, float3.sub, float3.add, float3.scale, float3.divide,
        mul_div_assoc, ← ht_def]
      ring
    refine ⟨by show 0 < (s.radius + d) / 2; linarith, ?_, ?_⟩
    · show _ ≤ (s.radius + d) / 2 * ((s.radius + d) / 2)
      rw [hcenter v, htd]
      have e : dot (v.sub s.center) (v.sub s.center) = d * d := by rw [hdd]; rfl
      have e2 : length2 (v.sub s.center) = d * d := hdd.symm
      rw [e, e2]
      have : 2 * t * (d * d) = 2 * (t * d) * d := by ring
      rw [this, htd]
      apply le_of_eq; ring
    · intro u hu
      show _ ≤ (s.radius + d) / 2 * ((s.radius + d) / 2)
      rw [hcenter u, htd]
      have hcs := dot_mul_self_le (u.sub s.center) (v.sub s.center)
      have hA := length2_nonneg (u.sub s.center)
      have hB : -dot (u.sub s.center) (v.sub s.center) ≤ s.radius * d := by
        apply le_of_mul_self_le (mul_nonneg hr.le hd.le)
        have : length2 (u.sub s.center) * length2 (v.sub s.center)
            ≤ (s.radius * s.radius) * (d * d) := by
          rw [← hdd]
          exact mul_le_mul_of_nonneg_right hu (mul_self_nonneg d)
        nlinarith
      have hB2 : -(2 * t * dot (u.sub s.center) (v.sub s.center)) ≤ 2 * s.radius * (t * d) := by
        have := mul_le_mul_of_nonneg_left hB (mul_nonneg (by norm_num : (0 : K) ≤ 2) ht0)
        nlinarith
      rw [htd] at hB2
      nlinarith
  · exact ⟨hr, not_lt.mp h, fun u hu => hu⟩

/-- The closing pass leaves a positive radius and encloses every vertex it visits and
every point enclosed before it. -/
theorem foldl_repair_encloses {sqrt : K → K} (hs : IsSqrt sqrt) (vs : List (float3 K)) :
    ∀ (s : Sphere K) (done : List (float3 K)), 0 < s.radius →
      (∀ u ∈ done, length2 (u.sub s.center) ≤ s.radius * s.radius) →
      0 < (vs.foldl (compute_enclosing_sphere.repair sqrt) s).radius ∧
        ∀ u : float3 K, u ∈ done ∨ u ∈ vs →
          length2 (u.sub (vs.foldl (compute_enclosing_sphere.repair sqrt) s).center)
            ≤ (vs.foldl (compute_enclosing_sphere.repair sqrt) s).radius
              * (vs.foldl (compute_enclosing_sphere.repair sqrt) s).radius := by
  induction vs with
  | nil =>
    intro s done hr hdone
    refine ⟨hr, fun u hu => ?_⟩
    rcases hu with hu | hu
    · exact hdone u hu
    · simp at hu
  | cons v rest ih =>
    intro s done hr hdone
    obtain ⟨hr1, hv, hkeep⟩ := repair_encloses hs s v hr
    have hstep := ih (compute_enclosing_sphere.repair sqrt s v) (v :: done) hr1 (by
      intro u hu
      rcases List.mem_cons.mp hu with rfl | hu
      · exact hv
      · exact hkeep u (hdone u hu))
    refine ⟨hstep.1, fun u hu => hstep.2 u ?_⟩
    rcases hu with hu | hu
    · exact Or.inl (List.mem_cons_of_mem _ hu)
    · rcases List.mem_cons.mp hu with rfl | hu
      · exact Or.inl (List.mem_cons_self _ _)
      · exact Or.inr hu

/-- Had the radius been initialized to any positive value, the sphere would enclose
every vertex: the failure of C7 comes from the uninitialized radius alone. -/
theorem compute_enclosing_sphere_encloses_of_pos (sqrt : K → K) (hs : IsSqrt sqrt)
    (indeterminate : K) (hpos : 0 < indeterminate) (vertices : List (float3 K)) (minRadius : K)
    (hlen : vertices.length ≤ 3) :
    ∀ v ∈ vertices,
      length sqrt (v.sub
          (compute_enclosing_sphere sqrt indeterminate vertices minRadius).center)
        ≤ (compute_enclosing_sphere sqrt indeterminate vertices minRadius).radius
          + SPHERE_EPSILON := by
  intro v hv
  have hguard : ¬ vertices.length > 3 := not_lt.mpr hlen
  simp only [compute_enclosing_sphere, hguard, if_false]
  have h1 : 0 < ((List.range 2).foldl
      (fun s _ => vertices.foldl (compute_enclosing_sphere.grow sqrt) s)
      (Sphere.default indeterminate)).radius := by
    simp only [List.range, List.range.loop, List.foldl]
    exact foldl_grow_radius_pos hs _ _ (foldl_grow_radius_pos hs _ _ hpos)
  obtain ⟨hr, henc⟩ := foldl_repair_encloses hs vertices _ [] h1 (by simp)
  have hle := henc v (Or.inr hv)
  have hroot := hs _ (length2_nonneg (v.sub (vertices.foldl
    (compute_enclosing_sphere.repair sqrt) ((List.range 2).foldl
      (fun s _ => vertices.foldl (compute_enclosing_sphere.grow sqrt) s)
      (Sphere.default indeterminate))).center))
  have hdist := le_of_mul_self_le hr.le (hroot.2.trans_le hle)
  have heps : (0 : K) < SPHERE_EPSILON := by simp only [SPHERE_EPSILON]; norm_num
  simp only [length]
  linarith

/-- C7 fails when the uninitialized radius holds a negative value: for the single
vertex (0, 0, 0) and the value -1, no pass updates the sphere (0 > 1 is false), the
result is the sphere of center (0, 0, 0) and radius -1, and the distance 0 from its
center to the vertex exceeds `radius + SPHERE_EPSILON`. -/
theorem compute_enclosing_sphere_not_enclosing :
    compute_enclosing_sphere Real.sqrt (-1 : ℝ) [⟨0, 0, 0⟩] SPHERE_EPSILON = ⟨⟨0, 0, 0⟩, -1⟩ ∧
    ¬ length Real.sqrt ((⟨0, 0, 0⟩ : float3 ℝ).sub
        (compute_enclosing_sphere Real.sqrt (-1 : ℝ) [⟨0, 0, 0⟩] SPHERE_EPSILON).center)
      ≤ (compute_enclosing_sphere Real.sqrt (-1 : ℝ) [⟨0, 0, 0⟩] SPHERE_EPSILON).radius
        + SPHERE_EPSILON := by
  have h : compute_enclosing_sphere Real.sqrt (-1 : ℝ) [⟨0, 0, 0⟩] SPHERE_EPSILON
      = ⟨⟨0, 0, 0⟩, -1⟩ := by
    norm_num [compute_enclosing_sphere, Sphere.default, compute_enclosing_sphere.grow,
      compute_enclosing_sphere.repair, List.range, List.range.loop, length2, dot, float3.sub]
  rw [h]
  refine ⟨rfl, ?_⟩
  simp [length, length2, dot, float3.sub, SPHERE_EPSILON]
  norm_num

/-- C8 fails on the radius: with four points and an uninitialized radius that holds 0,
the sphere returned is not the unit sphere at the origin. -/
theorem compute_enclosing_sphere_four_points_not_unit :
    compute_enclosing_sphere Real.sqrt (0 : ℝ)
      [⟨1, 0, 0⟩, ⟨0, 1, 0⟩, ⟨0, 0, 1⟩, ⟨1, 1, 1⟩] SPHERE_EPSILON ≠ ⟨⟨0, 0, 0⟩, 1⟩ := by
  simp [compute_enclosing_sphere, Sphere.default]

/-- C8, amended: for every list of more than 3 points and every `minRadius`,
`compute_enclosing_sphere` returns the default-constructed `Sphere()`, whose center is
the origin, whatever the points are. -/
theorem compute_enclosing_sphere_rejects (sqrt : K → K) (indeterminate : K)
    (vertices : List (float3 K)) (minRadius : K) (h : vertices.length > 3) :
    compute_enclosing_sphere sqrt indeterminate vertices minRadius
        = Sphere.default indeterminate ∧
      (compute_enclosing_sphere sqrt indeterminate vertices minRadius).center = ⟨0, 0, 0⟩ := by
  simp [compute_enclosing_sphere, h, Sphere.default]

/-- The amended C8 at four points: the sphere returned is centered at the origin. -/
theorem compute_enclosing_sphere_rejects_witness :
    ([⟨1, 0, 0⟩, ⟨0, 1, 0⟩, ⟨0, 0, 1⟩, ⟨1, 1, 1⟩] : List (float3 ℝ)).length > 3 ∧
      (compute_enclosing_sphere Real.sqrt (5 : ℝ)
        [⟨1, 0, 0⟩, ⟨0, 1, 0⟩, ⟨0, 0, 1⟩, ⟨1, 1, 1⟩] SPHERE_EPSILON).center = ⟨0, 0, 0⟩ :=
  ⟨by simp, (compute_enclosing_sphere_rejects Real.sqrt 5 _ _ (by simp)).2⟩

/-! ## C9 and C10: planes -/

/-- C9: for a unit-length normal `n`, a point `q` and a scalar `t`, the plane
`Plane(n, q)` has `distance_to(q + t * n) = t`; so `distance_to(q) = 0`, and the
distance is positive exactly for `t > 0`. -/
theorem distance_to_ofNormalPoint (sqrt : K → K) (hs : IsSqrt sqrt) (n q : float3 K) (t : K)
    (hn : length sqrt n = 1) :
    (Plane.ofNormalPoint n q).distance_to (q.add (n.scale t)) = t ∧
      (Plane.ofNormalPoint n q).distance_to q = 0 ∧
      (0 < (Plane.ofNormalPoint n q).distance_to (q.add (n.scale t)) ↔ 0 < t) := by
  have h2 := (length_eq_one_iff hs n).mp hn
  have key : (Plane.ofNormalPoint n q).distance_to (q.add (n.scale t)) = t := by
    simp only [length2, dot] at h2
    simp only [Plane.ofNormalPoint, Plane.distance_to, Plane.get_normal, float4.xyz, dot,
      float3.add, float3.scale]
    linear_combination t * h2
  refine ⟨key, ?_, by rw [key]⟩
  simp only [Plane.ofNormalPoint, Plane.distance_to, Plane.get_normal, float4.xyz, dot]
  ring

/-- C9 over the reals, at the normal (0, 1, 0), the point (1, 2, 3) and `t = 5`. -/
theorem distance_to_ofNormalPoint_witness :
    length Real.sqrt (⟨0, 1, 0⟩ : float3 ℝ) = 1 ∧
      (Plane.ofNormalPoint (⟨0, 1, 0⟩ : float3 ℝ) ⟨1, 2, 3⟩).distance_to
        ((⟨1, 2, 3⟩ : float3 ℝ).add ((⟨0, 1, 0⟩ : float3 ℝ).scale 5)) = 5 :=
  have h : length Real.sqrt (⟨0, 1, 0⟩ : float3 ℝ) = 1 := by
    simp [length, length2, dot]
  ⟨h, (distance_to_ofNormalPoint Real.sqrt isSqrt_real _ _ 5 h).1⟩

/-- C10: for every plane whose normal is non-zero, the normal of the plane
`normalize()` leaves has length 1. -/
theorem normalize_unit_length (sqrt : K → K) (hs : IsSqrt sqrt) (p : Plane K)
    (hn : p.get_normal ≠ ⟨0, 0, 0⟩) : length sqrt (p.normalize sqrt).get_normal = 1 :=
  (length_eq_one_iff hs _).mpr (length2_normalize hs p hn)

/-- C10 over the reals, at the plane of normal (3, 0, 4) and distance 7. -/
theorem normalize_unit_length_witness :
    (Plane.ofNormalDistance (⟨3, 0, 4⟩ : float3 ℝ) 7).get_normal ≠ ⟨0, 0, 0⟩ ∧
      length Real.sqrt ((Plane.ofNormalDistance (⟨3, 0, 4⟩ : float3 ℝ) 7).normalize
        Real.sqrt).get_normal = 1 :=
  have h : (Plane.ofNormalDistance (⟨3, 0, 4⟩ : float3 ℝ) 7).get_normal ≠ ⟨0, 0, 0⟩ := by
    simp [Plane.ofNormalDistance, Plane.get_normal, float4.xyz]
  ⟨h, normalize_unit_length Real.sqrt isSqrt_real _ h⟩

/-! ## C11 to C13: point containment and `surround` -/

/-- The test of `Bounds3D::contains` as a conjunction of bounds. -/
theorem bounds3D_contains_eq_true (b : Bounds3D K) (p : float3 K) :
    b.contains p = true ↔
      (b._min.x ≤ p.x ∧ p.x ≤ b._max.x) ∧ (b._min.y ≤ p.y ∧ p.y ≤ b._max.y) ∧
        (b._min.z ≤ p.z ∧ p.z ≤ b._max.z) := by
  simp only [Bounds3D.contains]
  constructor
  · intro h
    split_ifs at h with h1 h2 h3
    simp only [not_or, not_lt, gt_iff_lt] at h1 h2 h3
    exact ⟨h1, h2, h3⟩
  · rintro ⟨⟨a1, a2⟩, ⟨a3, a4⟩, a5, a6⟩
    rw [if_neg (not_or.mpr ⟨not_lt.mpr a1, not_lt.mpr a2⟩),
      if_neg (not_or.mpr ⟨not_lt.mpr a3, not_lt.mpr a4⟩),
      if_neg (not_or.mpr ⟨not_lt.mpr a5, not_lt.mpr a6⟩)]

/-- C11: `Bounds2D::contains(px, py)` is true if and only if `min.x <= px < max.x` and
`min.y <= py < max.y`; a point on the max edge, `px = max.x` or `py = max.y`, is not
contained. -/
theorem bounds2D_contains_iff (b : Bounds2D K) (px py : K) :
    (b.contains px py = true ↔
        (b._min.x ≤ px ∧ px < b._max.x) ∧ (b._min.y ≤ py ∧ py < b._max.y)) ∧
      b.contains b._max.x py = false ∧ b.contains px b._max.y = false := by
  refine ⟨?_, ?_, ?_⟩
  · simp only [Bounds2D.contains, Bool.and_eq_true, decide_eq_true_eq, ge_iff_le]
    tauto
  · simp [Bounds2D.contains]
  · simp [Bounds2D.contains]

/-- C12: `Bounds3D::contains(p)` is true if and only if `min <= p <= max` on each of
the three axes; so the max corner is contained as soon as `min <= max`, and a point
of the max face `p.x = max.x` as soon as it is within the bounds on `y` and `z`. -/
theorem bounds3D_contains_iff (b : Bounds3D K) (p : float3 K) :
    (b.contains p = true ↔
      (b._min.x ≤ p.x ∧ p.x ≤ b._max.x) ∧ (b._min.y ≤ p.y ∧ p.y ≤ b._max.y) ∧
        (b._min.z ≤ p.z ∧ p.z ≤ b._max.z)) ∧
      (b.contains b._max = true ↔
        b._min.x ≤ b._max.x ∧ b._min.y ≤ b._max.y ∧ b._min.z ≤ b._max.z) ∧
      (b.contains ⟨b._max.x, p.y, p.z⟩ = true ↔
        b._min.x ≤ b._max.x ∧ (b._min.y ≤ p.y ∧ p.y ≤ b._max.y) ∧
          (b._min.z ≤ p.z ∧ p.z ≤ b._max.z)) := by
  refine ⟨bounds3D_contains_eq_true b p, ?_, ?_⟩
  · rw [bounds3D_contains_eq_true]
    simp
  · rw [bounds3D_contains_eq_true]
    simp

/-- C13: whatever the box held before, after `surround(p)` it has `min <= max` on each
axis, contains `p`, and still contains every point it contained; surrounding the point
of a box that is a single point leaves `min == max`. -/
theorem surround_invariant (b : Bounds3D K) (p : float3 K) :
    ((b.surround p)._min.x ≤ (b.surround p)._max.x ∧
        (b.surround p)._min.y ≤ (b.surround p)._max.y ∧
        (b.surround p)._min.z ≤ (b.surround p)._max.z) ∧
      (b.surround p).contains p = true ∧
      (∀ q, b.contains q = true → (b.surround p).contains q = true) ∧
      ((⟨p, p⟩ : Bounds3D K).surround p)._min = ((⟨p, p⟩ : Bounds3D K).surround p)._max := by
  refine ⟨?_, ?_, ?_, ?_⟩
  · simp only [Bounds3D.surround, float3.min, float3.max]
    exact ⟨(min_le_right _ _).trans (le_max_right _ _),
      (min_le_right _ _).trans (le_max_right _ _), (min_le_right _ _).trans (le_max_right _ _)⟩
  · rw [bounds3D_contains_eq_true]
    simp only [Bounds3D.surround, float3.min, float3.max]
    exact ⟨⟨min_le_right _ _, le_max_right _ _⟩, ⟨min_le_right _ _, le_max_right _ _⟩,
      min_le_right _ _, le_max_right _ _⟩
  · intro q hq
    rw [bounds3D_contains_eq_true] at hq ⊢
    obtain ⟨⟨a1, a2⟩, ⟨a3, a4⟩, a5, a6⟩ := hq
    simp only [Bounds3D.surround, float3.min, float3.max]
    exact ⟨⟨(min_le_left _ _).trans a1, a2.trans (le_max_left _ _)⟩,
      ⟨(min_le_left _ _).trans a3, a4.trans (le_max_left _ _)⟩,
      (min_le_left _ _).trans a5, a6.trans (le_max_left _ _)⟩
  · simp [Bounds3D.surround, float3.min, float3.max]

/-! ## C14: the perspective scenario -/

/-- A product with a positive factor is negative exactly when the other factor is. -/
theorem mul_lt_zero_iff_of_pos {a k : K} (hk : 0 < k) : a * k < 0 ↔ a < 0 := by
  constructor
  · intro h
    by_contra hna
    have := mul_nonneg (not_lt.mp hna) hk.le
    linarith
  · intro h
    exact mul_neg_of_neg_of_pos h hk

/-- Scaling a normal by a positive factor does not change the corner `get_positive`
picks. -/
theorem get_positive_scale (b : Bounds3D K) (n : float3 K) {k : K} (hk : 0 < k) :
    b.get_positive (n.scale k) = b.get_positive n := by
  simp only [get_positive_eq, float3.scale, mul_pos_iff_of_pos_right hk]

/-- Scaling a normal by a positive factor does not change the corner `get_negative`
picks. -/
theorem get_negative_scale (b : Bounds3D K) (n : float3 K) {k : K} (hk : 0 < k) :
    b.get_negative (n.scale k) = b.get_negative n := by
  simp only [get_negative_eq, float3.scale, mul_lt_zero_iff_of_pos hk]

/-- Scaling a plane equation scales every distance. -/
theorem distance_to_scale (e : float4 K) (k : K) (q : float3 K) :
    (⟨e.scale k⟩ : Plane K).distance_to q = (⟨e⟩ : Plane K).distance_to q * k := by
  simp only [Plane.distance_to, Plane.get_normal, float4.scale, float4.xyz, dot]
  ring

/-- The box overload of `contains` gives the same answer on two frusta whose planes
differ by positive factors. -/
theorem contains_box_scale (f g : Frustum K) (k : FrustumPlane → K) (hk : ∀ p, 0 < k p)
    (h : ∀ p, (g.planes p).equation = (f.planes p).equation.scale (k p))
    (center size : float3 K) : g.contains_box center size = f.contains_box center size := by
  have hg : ∀ p, g.planes p = ⟨(f.planes p).equation.scale (k p)⟩ := fun p => by
    rw [← h p]
  have hn : ∀ p, (⟨(f.planes p).equation.scale (k p)⟩ : Plane K).get_normal
      = (f.planes p).get_normal.scale (k p) := fun p => rfl
  simp only [Frustum.contains_box]
  congr 1
  funext p
  rw [hg p, hn p, get_positive_scale _ _ (hk p), get_negative_scale _ _ (hk p),
    distance_to_scale, distance_to_scale]
  simp only [mul_lt_zero_iff_of_pos (hk p)]

/-- The box overload of `intersects` gives the same answer on two frusta whose planes
differ by positive factors. -/
theorem intersects_box_scale (f g : Frustum K) (k : FrustumPlane → K) (hk : ∀ p, 0 < k p)
    (h : ∀ p, (g.planes p).equation = (f.planes p).equation.scale (k p))
    (center size : float3 K) : g.intersects_box center size = f.intersects_box center size := by
  have hg : ∀ p, g.planes p = ⟨(f.planes p).equation.scale (k p)⟩ := fun p => by
    rw [← h p]
  have hn : ∀ p, (⟨(f.planes p).equation.scale (k p)⟩ : Plane K).get_normal
      = (f.planes p).get_normal.scale (k p) := fun p => rfl
  simp only [Frustum.intersects_box]
  congr 1
  funext p
  rw [hg p, hn p, get_positive_scale _ _ (hk p), distance_to_scale]
  simp only [mul_lt_zero_iff_of_pos (hk p)]

/-- The planes `Frustum(viewProj)` builds for the perspective camera are positive
multiples of its six half-spaces in lowest terms. -/
theorem ofViewProj_perspective {sqrt : K → K} (hs : IsSqrt sqrt) (sx sy n f : K)
    (hn : 0 < n) (hf : n < f) :
    ∃ k : FrustumPlane → K, (∀ p, 0 < k p) ∧
      ∀ p, ((Frustum.ofViewProj sqrt (perspective_matrix sx sy n f)).planes p).equation
        = ((perspective_planes sx sy n f).planes p).equation.scale (k p) := by
  have hd : 0 < f - n := by linarith
  have hf0 : 0 < f := by linarith
  have hd0 : f - n ≠ 0 := ne_of_gt hd
  -- the factors that take the planes in lowest terms to the extracted planes
  let c : FrustumPlane → K := fun p =>
    match p with
    | .NEAR => 2 * f / (f - n)
    | .FAR => 2 * n / (f - n)
    | _ => 1
  have hc : ∀ p, 0 < c p := fun p => by
    cases p <;> simp only [c] <;> first | exact one_pos | positivity
  have hraw : ∀ p, ((Frustum.extract (perspective_matrix sx sy n f)).planes p).equation
      = ((perspective_planes sx sy n f).planes p).equation.scale (c p) := fun p => by
    cases p <;>
      simp only [Frustum.extract, perspective_matrix, perspective_planes, float4.ofFn,
        float4.get, float4x4.col, float4.scale, float4.mk.injEq, c] <;>
      refine ⟨?_, ?_, ?_, ?_⟩ <;> first | ring1 | (field_simp; ring1)
  have hnz : ∀ p, ((Frustum.extract (perspective_matrix sx sy n f)).planes p).get_normal
      ≠ ⟨0, 0, 0⟩ := fun p => by
    have hcp := hc p
    rw [Plane.get_normal, hraw p]
    cases p <;>
      simp only [perspective_planes, float4.scale, float4.xyz, ne_eq, float3.mk.injEq,
        not_and] <;>
      intros <;> nlinarith
  refine ⟨fun p => c p * (1 / length sqrt
    ((Frustum.extract (perspective_matrix sx sy n f)).planes p).get_normal), fun p => ?_,
    fun p => ?_⟩
  · have := hs.sqrt_pos (length2_pos (hnz p))
    exact mul_pos (hc p) (one_div_pos.mpr this)
  · simp only [Frustum.ofViewProj, Plane.normalize]
    rw [hraw p]
    simp only [float4.scale, float4.mk.injEq]
    refine ⟨?_, ?_, ?_, ?_⟩ <;> ring

/-- C14: for the frustum `Frustum(viewProj)` builds from the view-projection matrix of
a perspective camera at the origin looking down -Z with far plane 100, focal scales
at most 99 (a field of view of more than 1.2 degrees) and near plane at most 49.5,
the box overload of `contains` returns true for the unit box centered at (0, 0, -50)
and the box overload of `intersects` returns false for the unit box centered at
(0, 0, 150). -/
theorem perspective_scenario (sqrt : K → K) (hs : IsSqrt sqrt) (sx sy n : K)
    (hx : 0 < sx ∧ sx ≤ 99) (hy : 0 < sy ∧ sy ≤ 99) (hn : 0 < n ∧ n ≤ 99 / 2) :
    (Frustum.ofViewProj sqrt (perspective_matrix sx sy n 100)).contains_box
        ⟨0, 0, -50⟩ ⟨1, 1, 1⟩ = true ∧
      (Frustum.ofViewProj sqrt (perspective_matrix sx sy n 100)).intersects_box
        ⟨0, 0, 150⟩ ⟨1, 1, 1⟩ = false := by
  obtain ⟨hx0, hx1⟩ := hx
  obtain ⟨hy0, hy1⟩ := hy
  obtain ⟨hn0, hn1⟩ := hn
  obtain ⟨k, hk, hplanes⟩ := ofViewProj_perspective hs sx sy n 100 hn0 (by linarith)
  rw [contains_box_scale _ _ k hk hplanes, intersects_box_scale _ _ k hk hplanes]
  constructor
  · simp only [Frustum.contains_box, none_rejects_iff]
    intro p _
    cases p <;>
      simp only [perspective_planes, get_positive_eq, get_negative_eq, Plane.distance_to,
        Plane.get_normal, float4.xyz, dot, float3.sub, float3.add, float3.scale] <;>
      norm_num <;> (try split_ifs) <;> constructor <;> linarith
  · have hfalse : ¬ (perspective_planes sx sy n 100).intersects_box ⟨0, 0, 150⟩ ⟨1, 1, 1⟩
        = true := by
      simp only [Frustum.intersects_box, none_rejects_iff]
      intro hall
      have h := hall .NEAR (mem_order _)
      simp only [perspective_planes, get_positive_eq, Plane.distance_to,
        Plane.get_normal, float4.xyz, dot, float3.sub, float3.add, float3.scale] at h
      norm_num at h
      linarith
    simpa using hfalse

/-- C14 over the reals for a camera with a field of view of 90 degrees, aspect ratio 1
and near plane 1/10. -/
theorem perspective_scenario_witness :
    (((0 : ℝ) < 1 ∧ (1 : ℝ) ≤ 99) ∧ ((0 : ℝ) < 1 / 10 ∧ (1 / 10 : ℝ) ≤ 99 / 2)) ∧
      (Frustum.ofViewProj Real.sqrt (perspective_matrix (1 : ℝ) 1 (1 / 10) 100)).contains_box
        ⟨0, 0, -50⟩ ⟨1, 1, 1⟩ = true ∧
      (Frustum.ofViewProj Real.sqrt (perspective_matrix (1 : ℝ) 1 (1 / 10) 100)).intersects_box
        ⟨0, 0, 150⟩ ⟨1, 1, 1⟩ = false :=
  ⟨by norm_num,
    perspective_scenario Real.sqrt isSqrt_real 1 1 (1 / 10) (by norm_num) (by norm_num)
      (by norm_num)⟩

set_option linter.unusedSectionVars false

/-! ## C15 to C19: `CubemapCamera` -/

/-- With no callback or one that returns normally, the loop over the faces ends
normally and adds the traces of its faces. -/
theorem render_faces_returning (m : MathCore K) (cam : CubemapCamera K)
    (r : Option (float3 K → float4x4 K → float4x4 K → GlContext → GlContext))
    (worldLocation : float3 K) :
    ∀ (faces : List Nat) (w : World K), ∃ g : GlContext,
      CubemapCamera.render_faces m (cam.set_render (r.map RenderCallback.returning))
          worldLocation faces w
        = .ok ⟨g, w.trace ++ CubemapCamera.faces_trace m
            (cam.set_render (r.map RenderCallback.returning)) worldLocation faces⟩ := by
  intro faces
  induction faces with
  | nil =>
    intro w
    exact ⟨w.gl, by simp [CubemapCamera.render_faces, CubemapCamera.faces_trace]⟩
  | cons i rest ih =>
    intro w
    cases r with
    | none =>
      obtain ⟨g, hg⟩ := ih (((((w.call (.framebufferTexture2D .COLOR_ATTACHMENT0 i
        cam.cubeMapColor)).call (.framebufferTexture2D .DEPTH_ATTACHMENT i
        cam.cubeMapDepth)).call (.viewport 0 0 cam.resolution cam.resolution)).call
        (.clearColor 0 0 0 1)).call .clear)
      refine ⟨g, ?_⟩
      simp only [CubemapCamera.set_render, Option.map_none'] at hg ⊢
      simp only [CubemapCamera.render_faces, hg]
      simp [World.call, CubemapCamera.faces_trace, CubemapCamera.face_trace]
    | some f =>
      obtain ⟨g, hg⟩ := ih ⟨f worldLocation (CubemapCamera.viewMatrix m worldLocation i)
        (CubemapCamera.projMatrix m) (((((w.call (.framebufferTexture2D .COLOR_ATTACHMENT0 i
        cam.cubeMapColor)).call (.framebufferTexture2D .DEPTH_ATTACHMENT i
        cam.cubeMapDepth)).call (.viewport 0 0 cam.resolution cam.resolution)).call
        (.clearColor 0 0 0 1)).call .clear).gl,
        (((((w.call (.framebufferTexture2D .COLOR_ATTACHMENT0 i
        cam.cubeMapColor)).call (.framebufferTexture2D .DEPTH_ATTACHMENT i
        cam.cubeMapDepth)).call (.viewport 0 0 cam.resolution cam.resolution)).call
        (.clearColor 0 0 0 1)).call .clear).trace ++
        [.render worldLocation (CubemapCamera.viewMatrix m worldLocation i)
          (CubemapCamera.projMatrix m)]⟩
      refine ⟨g, ?_⟩
      simp only [CubemapCamera.set_render, Option.map_some'] at hg ⊢
      simp only [CubemapCamera.render_faces, RenderCallback.returning, hg]
      simp [World.call, CubemapCamera.faces_trace, CubemapCamera.face_trace]

/-- After `save_pngs` and the two restoring binds the flag is clear, the bindings are
the restored ones and the trace has the calls of `save_pngs` and the two binds. -/
theorem save_and_restore_eq (cam : CubemapCamera K) (w : World K) (drawFboId readFboId : Nat) :
    (cam.save_pngs w).1 = { cam with shouldCapture := false } ∧
      ((cam.save_pngs w).2.call (.bindFramebuffer .DRAW_FRAMEBUFFER drawFboId)).call
          (.bindFramebuffer .READ_FRAMEBUFFER readFboId)
        = ⟨⟨drawFboId, readFboId, 0⟩,
            w.trace ++ (CubemapCamera.save_trace cam ++
              [.bindFramebuffer .DRAW_FRAMEBUFFER drawFboId,
               .bindFramebuffer .READ_FRAMEBUFFER readFboId])⟩ := by
  simp [CubemapCamera.save_pngs, CubemapCamera.save_faces, CubemapCamera.save_trace,
    World.call, GlContext.apply, List.range, List.range.loop]

/-- What `update` does with no callback or one that returns normally: nothing when
`shouldCapture` is clear; otherwise it returns with `shouldCapture` cleared, the
trace of a whole capture added and both framebuffer bindings as they were. -/
theorem update_returning (m : MathCore K) (cam : CubemapCamera K)
    (r : Option (float3 K → float4x4 K → float4x4 K → GlContext → GlContext))
    (worldLocation : float3 K) (w : World K) :
    (cam.shouldCapture = false →
      (cam.set_render (r.map RenderCallback.returning)).update m worldLocation w
        = .ok (cam.set_render (r.map RenderCallback.returning), w)) ∧
    (cam.shouldCapture = true →
      (cam.set_render (r.map RenderCallback.returning)).update m worldLocation w
        = .ok ({ cam.set_render (r.map RenderCallback.returning) with shouldCapture := false },
            ⟨⟨w.gl.drawFramebufferBinding, w.gl.readFramebufferBinding, 0⟩,
              w.trace ++ CubemapCamera.capture_trace m
                (cam.set_render (r.map RenderCallback.returning)) worldLocation
                w.gl.drawFramebufferBinding w.gl.readFramebufferBinding⟩)) := by
  constructor
  · intro h
    simp [CubemapCamera.update, CubemapCamera.set_render, h]
  · intro h
    obtain ⟨g, hg⟩ := render_faces_returning m cam r worldLocation [0, 1, 2, 3, 4, 5]
      ((w.call (.bindFramebuffer .DRAW_FRAMEBUFFER cam.framebuffer)).call
        (.bindFramebuffer .READ_FRAMEBUFFER cam.framebuffer))
    have hflag : (cam.set_render (r.map RenderCallback.returning)).shouldCapture = true := h
    have hfb : (cam.set_render (r.map RenderCallback.returning)).framebuffer
        = cam.framebuffer := rfl
    have hrange : List.range 6 = [0, 1, 2, 3, 4, 5] := by decide
    generalize hcam : cam.set_render (r.map RenderCallback.returning) = cam1 at *
    generalize hfaces : CubemapCamera.faces_trace m cam1 worldLocation [0, 1, 2, 3, 4, 5]
      = faces at *
    simp only [CubemapCamera.update, hflag, if_true, hfb, hrange, hg]
    obtain ⟨h1, h2⟩ := save_and_restore_eq cam1
      ⟨g, ((w.call (.bindFramebuffer .DRAW_FRAMEBUFFER cam.framebuffer)).call
        (.bindFramebuffer .READ_FRAMEBUFFER cam.framebuffer)).trace ++ faces⟩
      w.gl.drawFramebufferBinding w.gl.readFramebufferBinding
    rw [h1, h2]
    simp only [World.call, CubemapCamera.capture_trace, hfb, hfaces, List.append_assoc,
      List.cons_append, List.nil_append]
/-- The callback invocations of two traces in a row. -/
theorem renders_append (a b : List (Call K)) :
    Call.renders (a ++ b) = Call.renders a ++ Call.renders b := by
  induction a with
  | nil => rfl
  | cons c rest ih => cases c <;> simp [Call.renders, ih]

/-- The images written by two traces in a row. -/
theorem written_append (a b : List (Call K)) :
    Call.written (a ++ b) = Call.written a ++ Call.written b := by
  induction a with
  | nil => rfl
  | cons c rest ih => cases c <;> simp [Call.written, ih]

/-- The calls made since a trace had its present length are the ones appended. -/
theorem since_append (a b : List (Call K)) : Call.since a.length (a ++ b) = b := by
  simp [Call.since]

/-- A whole capture writes the six faces in order. -/
theorem written_capture_trace (m : MathCore K) (cam : CubemapCamera K)
    (worldLocation : float3 K) (drawFboId readFboId : Nat) :
    Call.written (CubemapCamera.capture_trace m cam worldLocation drawFboId readFboId)
      = [0, 1, 2, 3, 4, 5] := by
  cases h : cam.render.isSome <;>
    simp [CubemapCamera.capture_trace, CubemapCamera.faces_trace, CubemapCamera.face_trace,
      CubemapCamera.save_trace, written_append, Call.written, h]

/-- A whole capture with a callback set invokes it once per face, in order, with the
world location, the view of the face and the one projection matrix. -/
theorem renders_capture_trace (m : MathCore K) (cam : CubemapCamera K)
    (worldLocation : float3 K) (drawFboId readFboId : Nat) (h : cam.render.isSome = true) :
    Call.renders (CubemapCamera.capture_trace m cam worldLocation drawFboId readFboId)
      = (List.range 6).map fun i =>
          .render worldLocation (CubemapCamera.viewMatrix m worldLocation i)
            (CubemapCamera.projMatrix m) := by
  have hrange : List.range 6 = [0, 1, 2, 3, 4, 5] := by decide
  simp [CubemapCamera.capture_trace, CubemapCamera.faces_trace, CubemapCamera.face_trace,
    CubemapCamera.save_trace, renders_append, Call.renders, h, hrange]

/-- C15: for every initial pair of framebuffer bindings and every callback that returns
normally, or no callback, `update` returns and the draw and the read framebuffer
binding are the ones it was called with, whether it captured or not. -/
theorem update_restores_bindings (m : MathCore K) (cam : CubemapCamera K)
    (r : Option (float3 K → float4x4 K → float4x4 K → GlContext → GlContext))
    (worldLocation : float3 K) (w : World K) :
    ∃ s, (cam.set_render (r.map RenderCallback.returning)).update m worldLocation w = .ok s ∧
      s.2.gl.drawFramebufferBinding = w.gl.drawFramebufferBinding ∧
      s.2.gl.readFramebufferBinding = w.gl.readFramebufferBinding := by
  cases h : cam.shouldCapture with
  | false => exact ⟨_, (update_returning m cam r worldLocation w).1 h, rfl, rfl⟩
  | true => exact ⟨_, (update_returning m cam r worldLocation w).2 h, rfl, rfl⟩

/-- C17: when a capture runs with a callback that returns normally, `update` makes the
calls of a whole capture and no other. For each face 0 to 5, that is +X, -X, +Y, -Y,
+Z, -Z, in this order, the face is attached as color and as depth target, the viewport
set and the target cleared, and then the callback is invoked: six invocations in all,
each with the given world location as eye position and the one projection matrix
`make_projection_matrix(to_radians(90), 1, 0.1, 128)`. -/
theorem update_invokes_callback_per_face (m : MathCore K) (cam : CubemapCamera K)
    (r : float3 K → float4x4 K → float4x4 K → GlContext → GlContext)
    (worldLocation : float3 K) (w : World K) :
    ∃ s, ((cam.export_pngs).set_render (some (RenderCallback.returning r))).update m
          worldLocation w = .ok s ∧
      Call.since w.trace.length s.2.trace
        = CubemapCamera.capture_trace m
            ((cam.export_pngs).set_render (some (RenderCallback.returning r))) worldLocation
            w.gl.drawFramebufferBinding w.gl.readFramebufferBinding ∧
      Call.renders (Call.since w.trace.length s.2.trace)
        = [.render worldLocation (CubemapCamera.viewMatrix m worldLocation 0)
              (m.make_projection_matrix (m.to_radians 90) 1 0.1 128),
           .render worldLocation (CubemapCamera.viewMatrix m worldLocation 1)
              (m.make_projection_matrix (m.to_radians 90) 1 0.1 128),
           .render worldLocation (CubemapCamera.viewMatrix m worldLocation 2)
              (m.make_projection_matrix (m.to_radians 90) 1 0.1 128),
           .render worldLocation (CubemapCamera.viewMatrix m worldLocation 3)
              (m.make_projection_matrix (m.to_radians 90) 1 0.1 128),
           .render worldLocation (CubemapCamera.viewMatrix m worldLocation 4)
              (m.make_projection_matrix (m.to_radians 90) 1 0.1 128),
           .render worldLocation (CubemapCamera.viewMatrix m worldLocation 5)
              (m.make_projection_matrix (m.to_radians 90) 1 0.1 128)] ∧
      ∀ i, CubemapCamera.face_trace m
            ((cam.export_pngs).set_render (some (RenderCallback.returning r))) worldLocation i
        = [.framebufferTexture2D .COLOR_ATTACHMENT0 i cam.cubeMapColor,
           .framebufferTexture2D .DEPTH_ATTACHMENT i cam.cubeMapDepth,
           .viewport 0 0 cam.resolution cam.resolution,
           .clearColor 0 0 0 1,
           .clear,
           .render worldLocation (CubemapCamera.viewMatrix m worldLocation i)
              (m.make_projection_matrix (m.to_radians 90) 1 0.1 128)] := by
  have hup := (update_returning m cam.export_pngs (some r) worldLocation w).2 rfl
  refine ⟨_, hup, ?_, ?_, ?_⟩
  · exact since_append _ _
  · have hsome : ((cam.export_pngs).set_render
        (some (RenderCallback.returning r))).render.isSome = true := rfl
    have hsince := since_append w.trace (CubemapCamera.capture_trace m
      ((cam.export_pngs).set_render (some (RenderCallback.returning r))) worldLocation
      w.gl.drawFramebufferBinding w.gl.readFramebufferBinding)
    have hrange : List.range 6 = [0, 1, 2, 3, 4, 5] := by decide
    have hren := renders_capture_trace m _ worldLocation w.gl.drawFramebufferBinding
      w.gl.readFramebufferBinding hsome
    rw [hrange] at hren
    exact (congrArg Call.renders hsince).trans hren
  · intro i
    rfl

/-- C18 fails: on a new camera, for which `export_pngs` was never called, `update`
with a callback set invokes the callback not once. -/
theorem update_without_request_renders_nothing :
    Call.renders (CubemapCamera.after
      (((CubemapCamera.create 7 8 9 (1024 : ℚ)).set_render
        (some (RenderCallback.returning fun _ _ _ g => g))).update MathCore.identity
        ⟨0, 0, 0⟩ World.initial)).2.trace = [] := by
  rfl

/-- C18, amended: `update` renders the six cube faces, invoking the callback once per
face, exactly when `export_pngs` has been requested and not yet served, that is when
`shouldCapture` is set; otherwise it makes no call at all. -/
theorem update_renders_iff_requested (m : MathCore K) (cam : CubemapCamera K)
    (r : float3 K → float4x4 K → float4x4 K → GlContext → GlContext)
    (worldLocation : float3 K) (w : World K) :
    ∃ s, (cam.set_render (some (RenderCallback.returning r))).update m worldLocation w = .ok s ∧
      Call.since w.trace.length s.2.trace
        = (if cam.shouldCapture then
            CubemapCamera.capture_trace m (cam.set_render (some (RenderCallback.returning r)))
              worldLocation w.gl.drawFramebufferBinding w.gl.readFramebufferBinding
           else []) ∧
      Call.renders (Call.since w.trace.length s.2.trace)
        = (if cam.shouldCapture then
            (List.range 6).map fun i =>
              .render worldLocation (CubemapCamera.viewMatrix m worldLocation i)
                (CubemapCamera.projMatrix m)
           else []) := by
  cases h : cam.shouldCapture with
  | false =>
    refine ⟨_, (update_returning m cam (some r) worldLocation w).1 h, ?_, ?_⟩ <;>
      simp [Call.since, Call.renders]
  | true =>
    have hsince := since_append w.trace (CubemapCamera.capture_trace m
      (cam.set_render (some (RenderCallback.returning r))) worldLocation
      w.gl.drawFramebufferBinding w.gl.readFramebufferBinding)
    refine ⟨_, (update_returning m cam (some r) worldLocation w).2 h, ?_, ?_⟩
    · simpa using hsince
    · simp only [if_true]
      exact (congrArg Call.renders hsince).trans
        (renders_capture_trace m _ worldLocation _ _ rfl)

/-- C19: for every sequence of `export_pngs` and `update` calls on a camera whose
callback, if any, returns normally, each `update` writes the six face images, in the
order of the faces, exactly when `export_pngs` was called since the last `update` that
wrote them (or a request was pending at the start), and writes nothing otherwise; a
new camera has no request pending, and an `update` leaves none. -/
theorem run_writes_on_request (m : MathCore K)
    (r : Option (float3 K → float4x4 K → float4x4 K → GlContext → GlContext))
    (ops : List (CubemapCamera.Op K)) (cam : CubemapCamera K) (w : World K)
    (framebuffer cubeMapColor cubeMapDepth : Nat) (resolution : K)
    (worldLocation : float3 K) :
    CubemapCamera.run m ops (cam.set_render (r.map RenderCallback.returning)) w
        = .ok (CubemapCamera.expected_writes cam.shouldCapture ops) ∧
      CubemapCamera.run m ops
          ((CubemapCamera.create framebuffer cubeMapColor cubeMapDepth resolution).set_render
            (r.map RenderCallback.returning)) w
        = .ok (CubemapCamera.expected_writes false ops) ∧
      ∃ s, (cam.set_render (r.map RenderCallback.returning)).update m worldLocation w = .ok s ∧
        s.1.shouldCapture = false := by
  have key : ∀ (ops : List (CubemapCamera.Op K)) (cam : CubemapCamera K) (w : World K),
      CubemapCamera.run m ops (cam.set_render (r.map RenderCallback.returning)) w
        = .ok (CubemapCamera.expected_writes cam.shouldCapture ops) := by
    intro ops
    induction ops with
    | nil => intro cam w; rfl
    | cons op rest ih =>
      intro cam w
      cases op with
      | export_pngs =>
        simp only [CubemapCamera.run, CubemapCamera.expected_writes]
        exact ih cam.export_pngs w
      | update loc =>
        cases h : cam.shouldCapture with
        | false =>
          have hup := (update_returning m cam r loc w).1 h
          have hrest := ih cam w
          rw [h] at hrest
          simp only [CubemapCamera.run, CubemapCamera.expected_writes, hup, hrest]
          simp [Call.since, Call.written]
        | true =>
          have hup := (update_returning m cam r loc w).2 h
          have hrest := ih { cam with shouldCapture := false }
            ⟨⟨w.gl.drawFramebufferBinding, w.gl.readFramebufferBinding, 0⟩,
              w.trace ++ CubemapCamera.capture_trace m
                (cam.set_render (r.map RenderCallback.returning)) loc
                w.gl.drawFramebufferBinding w.gl.readFramebufferBinding⟩
          have hcam : ({ cam with shouldCapture := false } : CubemapCamera K).set_render
              (r.map RenderCallback.returning)
              = { cam.set_render (r.map RenderCallback.returning) with
                  shouldCapture := false } := rfl
          rw [hcam] at hrest
          simp only [CubemapCamera.run, CubemapCamera.expected_writes, hup, hrest]
          simp [since_append, written_capture_trace]
  refine ⟨key ops cam w, key ops _ w, ?_⟩
  cases h : cam.shouldCapture with
  | false => exact ⟨_, (update_returning m cam r worldLocation w).1 h, h⟩
  | true => exact ⟨_, (update_returning m cam r worldLocation w).2 h, rfl⟩

/-! ## C20: the blur chain -/

/-- C20: for a 1280x720 surface the five levels of the blur chain, each half the
previous by floor division, are 640x360, 320x180, 160x90, 80x45 and 40x22, and the
levels execute in the order 0, 1, 2, 3, 4, which is strictly increasing, as it is for
any number of levels. -/
theorem blur_chain_sizes_and_order :
    blur_chain.level_sizes 5 (1280, 720)
        = [(640, 360), (320, 180), (160, 90), (80, 45), (40, 22)] ∧
      blur_chain.execution_order 5 = [0, 1, 2, 3, 4] ∧
      ∀ levels, (blur_chain.execution_order levels).Pairwise (fun i j => i < j) := by
  refine ⟨by decide, by decide, fun levels => ?_⟩
  exact List.pairwise_lt_range levels

/-! ## C21: the corners `get_negative` and `get_positive` pick -/

/-- In exact arithmetic, over an ordered field: for every box, every normal `n` and
every point `q` the box contains (the box then has `min <= max`),
`dot(n, get_negative(n)) <= dot(n, q) <= dot(n, get_positive(n))`, and both
`get_negative(n)` and `get_positive(n)` are corners of the box. The proof rests on
`min + (max - min) = max`, which rounding breaks. -/
theorem get_negative_get_positive_extreme_exact (b : Bounds3D K) (n q : float3 K)
    (hq : b.contains q = true) :
    (dot n (b.get_negative n) ≤ dot n q ∧ dot n q ≤ dot n (b.get_positive n)) ∧
      b.get_negative n ∈ b.corners ∧ b.get_positive n ∈ b.corners := by
  obtain ⟨⟨hx1, hx2⟩, ⟨hy1, hy2⟩, hz1, hz2⟩ := (bounds3D_contains_eq_true b q).mp hq
  refine ⟨⟨?_, ?_⟩, ?_, ?_⟩
  · rw [get_negative_eq]
    simp only [dot]
    have hx := axis_negative_le n.x _ _ _ hx1 hx2
    have hy := axis_negative_le n.y _ _ _ hy1 hy2
    have hz := axis_negative_le n.z _ _ _ hz1 hz2
    linarith
  · rw [get_positive_eq]
    simp only [dot]
    have hx := axis_le_positive n.x _ _ _ hx1 hx2
    have hy := axis_le_positive n.y _ _ _ hy1 hy2
    have hz := axis_le_positive n.z _ _ _ hz1 hz2
    linarith
  · rw [get_negative_eq]
    simp only [Bounds3D.corners, List.mem_cons, List.mem_singleton, float3.mk.injEq,
      add_sub_cancel]
    split_ifs <;> simp
  · rw [get_positive_eq]
    simp only [Bounds3D.corners, List.mem_cons, List.mem_singleton, float3.mk.injEq,
      add_sub_cancel]
    split_ifs <;> simp

/-- The exact statement at the box from (0, 0, 0) to (2, 2, 2), the normal (1, -1, 0)
and the point (1, 1, 1). -/
theorem get_negative_get_positive_extreme_exact_witness :
    (⟨⟨0, 0, 0⟩, ⟨2, 2, 2⟩⟩ : Bounds3D ℚ).contains ⟨1, 1, 1⟩ = true ∧
    (dot (⟨1, -1, 0⟩ : float3 ℚ) ((⟨⟨0, 0, 0⟩, ⟨2, 2, 2⟩⟩ : Bounds3D ℚ).get_negative ⟨1, -1, 0⟩)
        ≤ dot (⟨1, -1, 0⟩ : float3 ℚ) ⟨1, 1, 1⟩ ∧
      dot (⟨1, -1, 0⟩ : float3 ℚ) ⟨1, 1, 1⟩
        ≤ dot (⟨1, -1, 0⟩ : float3 ℚ)
            ((⟨⟨0, 0, 0⟩, ⟨2, 2, 2⟩⟩ : Bounds3D ℚ).get_positive ⟨1, -1, 0⟩)) :=
  have hq : (⟨⟨0, 0, 0⟩, ⟨2, 2, 2⟩⟩ : Bounds3D ℚ).contains ⟨1, 1, 1⟩ = true := by
    norm_num [Bounds3D.contains]
  ⟨hq,
    (get_negative_get_positive_extreme_exact (⟨⟨0, 0, 0⟩, ⟨2, 2, 2⟩⟩ : Bounds3D ℚ) ⟨1, -1, 0⟩
      ⟨1, 1, 1⟩ hq).1⟩

section CornersBinary32

set_option maxRecDepth 4000

/-- C21 fails in `float` arithmetic. First input: the box from (-100000000, 0, 0) to
(1, 1, 1) contains (1, 1, 1); its size has x = 100000000, the `float` nearest to
100000001, so `get_positive((1, 1, 1))` and `get_negative((-1, -1, -1))` both return
(0, 1, 1), which is not a corner, and dot((1, 1, 1), (0, 1, 1)) = 2 is below
dot((1, 1, 1), (1, 1, 1)) = 3. Second input, at ordinary scale: for the box from
(-4.1030035, -1, -1) to (-0.09845996, 1, 1), `get_positive((1, 0, 0))` and
`get_negative((-1, 0, 0))` return x = -0.0984602, not a corner, and the corner `_max`
lies beyond both along the normal. -/
theorem get_positive_get_negative_not_corner :
    (((-100000000 : F32) ≤ 1 ∧ (0 : F32) ≤ 1) ∧
      (⟨⟨-100000000, 0, 0⟩, ⟨1, 1, 1⟩⟩ : Bounds3D F32).contains ⟨1, 1, 1⟩ = true ∧
      (⟨⟨-100000000, 0, 0⟩, ⟨1, 1, 1⟩⟩ : Bounds3D F32).get_positive ⟨1, 1, 1⟩ = ⟨0, 1, 1⟩ ∧
      (⟨⟨-100000000, 0, 0⟩, ⟨1, 1, 1⟩⟩ : Bounds3D F32).get_negative ⟨-1, -1, -1⟩ = ⟨0, 1, 1⟩ ∧
      (⟨0, 1, 1⟩ : float3 F32) ∉ (⟨⟨-100000000, 0, 0⟩, ⟨1, 1, 1⟩⟩ : Bounds3D F32).corners ∧
      dot (⟨1, 1, 1⟩ : float3 F32)
          ((⟨⟨-100000000, 0, 0⟩, ⟨1, 1, 1⟩⟩ : Bounds3D F32).get_positive ⟨1, 1, 1⟩)
        < dot (⟨1, 1, 1⟩ : float3 F32) ⟨1, 1, 1⟩ ∧
      dot (⟨-1, -1, -1⟩ : float3 F32) ⟨1, 1, 1⟩
        < dot (⟨-1, -1, -1⟩ : float3 F32)
          ((⟨⟨-100000000, 0, 0⟩, ⟨1, 1, 1⟩⟩ : Bounds3D F32).get_negative ⟨-1, -1, -1⟩)) ∧
    (((-4.1030035 : F32) ≤ -0.09845996 ∧ (-1 : F32) ≤ 1) ∧
      (⟨⟨-4.1030035, -1, -1⟩, ⟨-0.09845996, 1, 1⟩⟩ : Bounds3D F32).contains
        ⟨-0.09845996, 1, 1⟩ = true ∧
      (⟨⟨-4.1030035, -1, -1⟩, ⟨-0.09845996, 1, 1⟩⟩ : Bounds3D F32).get_positive ⟨1, 0, 0⟩
        = ⟨-0.0984602, -1, -1⟩ ∧
      (⟨⟨-4.1030035, -1, -1⟩, ⟨-0.09845996, 1, 1⟩⟩ : Bounds3D F32).get_negative ⟨-1, 0, 0⟩
        = ⟨-0.0984602, -1, -1⟩ ∧
      (⟨-0.0984602, -1, -1⟩ : float3 F32)
        ∉ (⟨⟨-4.1030035, -1, -1⟩, ⟨-0.09845996, 1, 1⟩⟩ : Bounds3D F32).corners ∧
      dot (⟨1, 0, 0⟩ : float3 F32)
          ((⟨⟨-4.1030035, -1, -1⟩, ⟨-0.09845996, 1, 1⟩⟩ : Bounds3D F32).get_positive ⟨1, 0, 0⟩)
        < dot (⟨1, 0, 0⟩ : float3 F32) ⟨-0.09845996, 1, 1⟩ ∧
      dot (⟨-1, 0, 0⟩ : float3 F32) ⟨-0.09845996, 1, 1⟩
        < dot (⟨-1, 0, 0⟩ : float3 F32)
          ((⟨⟨-4.1030035, -1, -1⟩, ⟨-0.09845996, 1, 1⟩⟩ : Bounds3D F32).get_negative
            ⟨-1, 0, 0⟩)) := by
  refine ⟨⟨?_, ?_, ?_, ?_, ?_, ?_, ?_⟩, ?_, ?_, ?_, ?_, ?_, ?_, ?_⟩ <;> decide

end CornersBinary32

/-! ## C23: `Bounds3D::intersects` -/

/-- C23 fails: the boxes from (0, 0, 0) to (2, 2, 2) and from (1, 1, 1) to (3, 3, 3) have
`min <= max` and share the point (1, 1, 1), which both contain, and `intersects` returns
false in both directions. -/
theorem bounds3D_intersects_overlapping_false :
    (⟨⟨0, 0, 0⟩, ⟨2, 2, 2⟩⟩ : Bounds3D ℚ).contains ⟨1, 1, 1⟩ = true ∧
      (⟨⟨1, 1, 1⟩, ⟨3, 3, 3⟩⟩ : Bounds3D ℚ).contains ⟨1, 1, 1⟩ = true ∧
      (⟨⟨0, 0, 0⟩, ⟨2, 2, 2⟩⟩ : Bounds3D ℚ).intersects ⟨⟨1, 1, 1⟩, ⟨3, 3, 3⟩⟩ = false ∧
      (⟨⟨1, 1, 1⟩, ⟨3, 3, 3⟩⟩ : Bounds3D ℚ).intersects ⟨⟨0, 0, 0⟩, ⟨2, 2, 2⟩⟩ = false := by
  refine ⟨?_, ?_, ?_, ?_⟩ <;> norm_num [Bounds3D.contains, Bounds3D.intersects]

/-- What `Bounds3D::intersects` tests: that the other box has its `min` and its `max`
corner in this box, on each axis. -/
theorem bounds3D_intersects_iff (a b : Bounds3D K) :
    a.intersects b = true ↔
      (a._min.x ≤ b._min.x ∧ b._max.x ≤ a._max.x) ∧ (a._min.y ≤ b._min.y ∧ b._max.y ≤ a._max.y) ∧
        (a._min.z ≤ b._min.z ∧ b._max.z ≤ a._max.z) := by
  simp only [Bounds3D.intersects, ge_iff_le]
  split_ifs with h
  · simp only [true_iff]
    tauto
  · simp only [Bool.false_eq_true, false_iff]
    tauto

/-- The same for `Bounds2D::intersects`, which has the same test on two axes. -/
theorem bounds2D_intersects_iff (a b : Bounds2D K) :
    a.intersects b = true ↔
      (a._min.x ≤ b._min.x ∧ b._max.x ≤ a._max.x) ∧
        (a._min.y ≤ b._min.y ∧ b._max.y ≤ a._max.y) := by
  simp only [Bounds2D.intersects, ge_iff_le]
  split_ifs with h
  · simp only [true_iff]
    tauto
  · simp only [Bool.false_eq_true, false_iff]
    tauto

/-! ## C24: the half-space predicates -/

/-- C24 fails: for the plane `Plane((1, 0, 0), (1, 0, 0))`, that is `x = 1`, the origin
has distance -1, yet `is_positive_half_space` is true for it and
`is_negative_half_space` false. -/
theorem half_space_disagrees_with_distance :
    (Plane.ofNormalPoint (⟨1, 0, 0⟩ : float3 ℚ) ⟨1, 0, 0⟩).distance_to ⟨0, 0, 0⟩ = -1 ∧
      (Plane.ofNormalPoint (⟨1, 0, 0⟩ : float3 ℚ) ⟨1, 0, 0⟩).is_positive_half_space ⟨0, 0, 0⟩
        = true ∧
      (Plane.ofNormalPoint (⟨1, 0, 0⟩ : float3 ℚ) ⟨1, 0, 0⟩).is_negative_half_space ⟨0, 0, 0⟩
        = false := by
  refine ⟨?_, ?_, ?_⟩ <;>
    norm_num [Plane.ofNormalPoint, Plane.distance_to, Plane.is_positive_half_space,
      Plane.is_negative_half_space, Plane.get_normal, float4.xyz, dot]

/-- What the two predicates test: the distance of the point, less twice the distance
term of the plane; they agree with the sign of `distance_to` for planes through the
origin. -/
theorem half_space_iff (p : Plane K) (point : float3 K) :
    (p.is_positive_half_space point = true ↔ 0 < p.distance_to point - 2 * p.equation.w) ∧
      (p.is_negative_half_space point = true ↔ p.distance_to point - 2 * p.equation.w < 0) := by
  simp only [Plane.is_positive_half_space, Plane.is_negative_half_space, Plane.distance_to,
    decide_eq_true_eq, gt_iff_lt]
  constructor <;> constructor <;> intro h <;> linarith

/-! ## C25: `minRadius` -/

/-- C25 fails: with no vertex, `minRadius = 1` and an uninitialized radius that holds
0, the sphere returned has radius 0, below `max(minRadius, SPHERE_EPSILON)`. -/
theorem compute_enclosing_sphere_ignores_minRadius :
    (compute_enclosing_sphere Real.sqrt (0 : ℝ) [] 1).radius = 0 ∧
      ¬ max (1 : ℝ) SPHERE_EPSILON ≤ (compute_enclosing_sphere Real.sqrt (0 : ℝ) [] 1).radius := by
  have h : (compute_enclosing_sphere Real.sqrt (0 : ℝ) [] 1).radius = 0 := by
    simp [compute_enclosing_sphere, Sphere.default, List.range, List.range.loop]
  rw [h]
  refine ⟨rfl, ?_⟩
  simp only [SPHERE_EPSILON]
  norm_num

/-- The result does not depend on `minRadius` at all, and with no vertex it is the
uninitialized sphere: whatever value the radius holds, a larger `minRadius` is not a
lower bound of the radius returned. -/
theorem compute_enclosing_sphere_minRadius_unused (sqrt : K → K) (indeterminate : K)
    (vertices : List (float3 K)) (minRadius other : K) :
    compute_enclosing_sphere sqrt indeterminate vertices minRadius
        = compute_enclosing_sphere sqrt indeterminate vertices other ∧
      (compute_enclosing_sphere sqrt indeterminate [] (|indeterminate| + 1)).radius
        < max (|indeterminate| + 1) SPHERE_EPSILON := by
  constructor
  · simp [compute_enclosing_sphere]
  · have h : (compute_enclosing_sphere sqrt indeterminate [] (|indeterminate| + 1)).radius
        = indeterminate := by
      simp [compute_enclosing_sphere, Sphere.default, List.range, List.range.loop]
    rw [h]
    exact lt_of_lt_of_le (lt_of_le_of_lt (le_abs_self _) (lt_add_one _)) (le_max_left _ _)
/-! ## C26: the intersection of three planes -/

/-- The point `plane_intersection` returns for three planes whose normals have squared
length 1 and are linearly independent lies on the three planes. -/
theorem plane_intersection_on_planes (a b c : Plane K)
    (ha : length2 a.get_normal = 1) (hb : length2 b.get_normal = 1)
    (hc : length2 c.get_normal = 1)
    (hdet : dot a.get_normal (cross b.get_normal c.get_normal) ≠ 0) :
    a.distance_to (plane_intersection a b c) = 0 ∧
      b.distance_to (plane_intersection a b c) = 0 ∧
      c.distance_to (plane_intersection a b c) = 0 := by
  simp only [length2, dot, Plane.get_normal, float4.xyz] at ha hb hc
  simp only [plane_intersection, get_plane_point, Plane.get_distance, Plane.distance_to,
    Plane.get_normal, float4.xyz, dot, cross, float3.scale, float3.add, float3.divide] at hdet ⊢
  refine ⟨?_, ?_, ?_⟩
  · field_simp
    linear_combination (-(a.equation.w) * (a.equation.x * (b.equation.y * c.equation.z
      - b.equation.z * c.equation.y) + a.equation.y * (b.equation.z * c.equation.x
      - b.equation.x * c.equation.z) + a.equation.z * (b.equation.x * c.equation.y
      - b.equation.y * c.equation.x))) * ha
  · field_simp
    linear_combination (-(b.equation.w) * (a.equation.x * (b.equation.y * c.equation.z
      - b.equation.z * c.equation.y) + a.equation.y * (b.equation.z * c.equation.x
      - b.equation.x * c.equation.z) + a.equation.z * (b.equation.x * c.equation.y
      - b.equation.y * c.equation.x))) * hb
  · field_simp
    linear_combination (-(c.equation.w) * (a.equation.x * (b.equation.y * c.equation.z
      - b.equation.z * c.equation.y) + a.equation.y * (b.equation.z * c.equation.x
      - b.equation.x * c.equation.z) + a.equation.z * (b.equation.x * c.equation.y
      - b.equation.y * c.equation.x))) * hc
/-- C26: for three planes with unit-length normals `n1`, `n2`, `n3` and
`dot(n1, cross(n2, n3)) != 0`, the point `plane_intersection(a, b, c)` returns has
`distance_to` 0 for all three planes; hence, in a frustum whose six normals have unit
length and whose corners are each the intersection of three planes with linearly
independent normals, `make_frustum_corners` returns eight corners, and entry by entry,
the corner at subscript `i` lies on the three planes of entry `i` of
`frustum_corner_planes`: FAR, TOP, LEFT for the first, and so on. -/
theorem plane_intersection_distance_zero (sqrt : K → K) (hs : IsSqrt sqrt) (a b c : Plane K)
    (ha : length sqrt a.get_normal = 1) (hb : length sqrt b.get_normal = 1)
    (hc : length sqrt c.get_normal = 1)
    (hdet : dot a.get_normal (cross b.get_normal c.get_normal) ≠ 0)
    (f : Frustum K) (hf : ∀ p, length sqrt (f.planes p).get_normal = 1)
    (hfdet : ∀ t ∈ frustum_corner_planes,
      dot (f.planes t.1).get_normal
        (cross (f.planes t.2.1).get_normal (f.planes t.2.2).get_normal) ≠ 0) :
    (a.distance_to (plane_intersection a b c) = 0 ∧
      b.distance_to (plane_intersection a b c) = 0 ∧
      c.distance_to (plane_intersection a b c) = 0) ∧
    (make_frustum_corners f).length = 8 ∧
    List.Forall₂
      (fun x t => (f.planes t.1).distance_to x = 0 ∧ (f.planes t.2.1).distance_to x = 0 ∧
        (f.planes t.2.2).distance_to x = 0)
      (make_frustum_corners f) frustum_corner_planes := by
  have h2 : ∀ p, length2 (f.planes p).get_normal = 1 := fun p =>
    (length_eq_one_iff hs _).mp (hf p)
  have key : ∀ t ∈ frustum_corner_planes,
      (f.planes t.1).distance_to
          (plane_intersection (f.planes t.1) (f.planes t.2.1) (f.planes t.2.2)) = 0 ∧
        (f.planes t.2.1).distance_to
          (plane_intersection (f.planes t.1) (f.planes t.2.1) (f.planes t.2.2)) = 0 ∧
        (f.planes t.2.2).distance_to
          (plane_intersection (f.planes t.1) (f.planes t.2.1) (f.planes t.2.2)) = 0 :=
    fun t ht => plane_intersection_on_planes _ _ _ (h2 _) (h2 _) (h2 _) (hfdet t ht)
  refine ⟨plane_intersection_on_planes a b c ((length_eq_one_iff hs _).mp ha)
    ((length_eq_one_iff hs _).mp hb) ((length_eq_one_iff hs _).mp hc) hdet, rfl, ?_⟩
  exact .cons (key (.FAR, .TOP, .LEFT) (by decide))
    (.cons (key (.FAR, .BOTTOM, .RIGHT) (by decide))
    (.cons (key (.FAR, .BOTTOM, .LEFT) (by decide))
    (.cons (key (.FAR, .TOP, .RIGHT) (by decide))
    (.cons (key (.NEAR, .TOP, .LEFT) (by decide))
    (.cons (key (.NEAR, .BOTTOM, .RIGHT) (by decide))
    (.cons (key (.NEAR, .BOTTOM, .LEFT) (by decide))
    (.cons (key (.NEAR, .TOP, .RIGHT) (by decide)) .nil)))))))

/-- C26 over the reals, at the planes `x = 1`, `y = 2`, `z = 3` and the default
frustum, the cube from (-1, -1, -1) to (1, 1, 1): the three planes meet in a point on
all three, and `make_frustum_corners` returns eight corners, each on the three faces
of the cube it is named after. -/
theorem plane_intersection_distance_zero_witness :
    ((length Real.sqrt (Plane.ofNormalPoint (⟨1, 0, 0⟩ : float3 ℝ) ⟨1, 0, 0⟩).get_normal = 1 ∧
        dot (Plane.ofNormalPoint (⟨1, 0, 0⟩ : float3 ℝ) ⟨1, 0, 0⟩).get_normal
          (cross (Plane.ofNormalPoint (⟨0, 1, 0⟩ : float3 ℝ) ⟨0, 2, 0⟩).get_normal
            (Plane.ofNormalPoint (⟨0, 0, 1⟩ : float3 ℝ) ⟨0, 0, 3⟩).get_normal) ≠ 0) ∧
      (∀ p, length Real.sqrt ((Frustum.default : Frustum ℝ).planes p).get_normal = 1) ∧
      ∀ t ∈ frustum_corner_planes,
        dot ((Frustum.default : Frustum ℝ).planes t.1).get_normal
          (cross ((Frustum.default : Frustum ℝ).planes t.2.1).get_normal
            ((Frustum.default : Frustum ℝ).planes t.2.2).get_normal) ≠ 0) ∧
    ((Plane.ofNormalPoint (⟨1, 0, 0⟩ : float3 ℝ) ⟨1, 0, 0⟩).distance_to
        (plane_intersection (Plane.ofNormalPoint (⟨1, 0, 0⟩ : float3 ℝ) ⟨1, 0, 0⟩)
          (Plane.ofNormalPoint ⟨0, 1, 0⟩ ⟨0, 2, 0⟩) (Plane.ofNormalPoint ⟨0, 0, 1⟩ ⟨0, 0, 3⟩))
        = 0 ∧
      (Plane.ofNormalPoint (⟨0, 1, 0⟩ : float3 ℝ) ⟨0, 2, 0⟩).distance_to
        (plane_intersection (Plane.ofNormalPoint (⟨1, 0, 0⟩ : float3 ℝ) ⟨1, 0, 0⟩)
          (Plane.ofNormalPoint ⟨0, 1, 0⟩ ⟨0, 2, 0⟩) (Plane.ofNormalPoint ⟨0, 0, 1⟩ ⟨0, 0, 3⟩))
        = 0 ∧
      (Plane.ofNormalPoint (⟨0, 0, 1⟩ : float3 ℝ) ⟨0, 0, 3⟩).distance_to
        (plane_intersection (Plane.ofNormalPoint (⟨1, 0, 0⟩ : float3 ℝ) ⟨1, 0, 0⟩)
          (Plane.ofNormalPoint ⟨0, 1, 0⟩ ⟨0, 2, 0⟩) (Plane.ofNormalPoint ⟨0, 0, 1⟩ ⟨0, 0, 3⟩))
        = 0) ∧
    (make_frustum_corners (Frustum.default : Frustum ℝ)).length = 8 ∧
    List.Forall₂
      (fun x t => ((Frustum.default : Frustum ℝ).planes t.1).distance_to x = 0 ∧
        ((Frustum.default : Frustum ℝ).planes t.2.1).distance_to x = 0 ∧
        ((Frustum.default : Frustum ℝ).planes t.2.2).distance_to x = 0)
      (make_frustum_corners (Frustum.default : Frustum ℝ)) frustum_corner_planes :=
  have ha : length Real.sqrt (Plane.ofNormalPoint (⟨1, 0, 0⟩ : float3 ℝ) ⟨1, 0, 0⟩).get_normal
      = 1 := by
    simp [length, length2, dot, Plane.ofNormalPoint, Plane.get_normal, float4.xyz]
  have hb : length Real.sqrt (Plane.ofNormalPoint (⟨0, 1, 0⟩ : float3 ℝ) ⟨0, 2, 0⟩).get_normal
      = 1 := by
    simp [length, length2, dot, Plane.ofNormalPoint, Plane.get_normal, float4.xyz]
  have hc : length Real.sqrt (Plane.ofNormalPoint (⟨0, 0, 1⟩ : float3 ℝ) ⟨0, 0, 3⟩).get_normal
      = 1 := by
    simp [length, length2, dot, Plane.ofNormalPoint, Plane.get_normal, float4.xyz]
  have hdet : dot (Plane.ofNormalPoint (⟨1, 0, 0⟩ : float3 ℝ) ⟨1, 0, 0⟩).get_normal
      (cross (Plane.ofNormalPoint (⟨0, 1, 0⟩ : float3 ℝ) ⟨0, 2, 0⟩).get_normal
        (Plane.ofNormalPoint (⟨0, 0, 1⟩ : float3 ℝ) ⟨0, 0, 3⟩).get_normal) ≠ 0 := by
    simp [dot, cross, Plane.ofNormalPoint, Plane.get_normal, float4.xyz]
  have hf : ∀ p, length Real.sqrt ((Frustum.default : Frustum ℝ).planes p).get_normal = 1 :=
    fun p => by
      cases p <;>
        simp [length, length2, dot, Frustum.default, Plane.ofNormalDistance, Plane.get_normal,
          float4.xyz]
  have hfdet : ∀ t ∈ frustum_corner_planes,
      dot ((Frustum.default : Frustum ℝ).planes t.1).get_normal
        (cross ((Frustum.default : Frustum ℝ).planes t.2.1).get_normal
          ((Frustum.default : Frustum ℝ).planes t.2.2).get_normal) ≠ 0 := by
    intro t ht
    simp only [frustum_corner_planes, List.mem_cons, List.mem_singleton, List.not_mem_nil,
      or_false] at ht
    rcases ht with h | h | h | h | h | h | h | h <;> rw [h] <;>
      simp [dot, cross, Frustum.default, Plane.ofNormalDistance, Plane.get_normal, float4.xyz]
  ⟨⟨⟨ha, hdet⟩, hf, hfdet⟩,
    plane_intersection_distance_zero Real.sqrt isSqrt_real _ _ _ ha hb hc hdet
      Frustum.default hf hfdet⟩

/-! ## C27: `transform_plane` with the identity -/

/-- C27 fails: `transform_plane(Identity4x4, p)` for the plane of normal (1, 0, 0) and
distance 1 keeps the normal and returns the distance -1, so the origin, at distance 1
from `p`, is at distance -1 from the result. -/
theorem transform_plane_identity_flips_distance :
    transform_plane identity4x4 (Plane.ofNormalDistance (⟨1, 0, 0⟩ : float3 ℚ) 1)
        = Plane.ofNormalDistance ⟨1, 0, 0⟩ (-1) ∧
      (Plane.ofNormalDistance (⟨1, 0, 0⟩ : float3 ℚ) 1).distance_to ⟨0, 0, 0⟩ = 1 ∧
      (transform_plane identity4x4
        (Plane.ofNormalDistance (⟨1, 0, 0⟩ : float3 ℚ) 1)).distance_to ⟨0, 0, 0⟩ = -1 := by
  refine ⟨?_, ?_, ?_⟩ <;>
    norm_num [transform_plane, transform_vector, transform_coord, identity4x4,
      Plane.ofNormalDistance, Plane.ofNormalPoint, Plane.get_normal, Plane.get_distance,
      Plane.distance_to, float4x4.mulVec, float4x4.col, float4.get, float4.ofFn, float4.xyz,
      float3.scale, float3.divide, dot]

/-- What `transform_plane` does with the identity on a plane whose normal has squared
length 1: it keeps the normal and negates the distance term. -/
theorem transform_plane_identity (p : Plane K) (hn : length2 p.get_normal = 1) :
    transform_plane identity4x4 p
      = ⟨⟨p.equation.x, p.equation.y, p.equation.z, -p.equation.w⟩⟩ := by
  simp only [length2, dot, Plane.get_normal, float4.xyz] at hn
  simp only [transform_plane, transform_vector, transform_coord, identity4x4,
    Plane.ofNormalPoint, Plane.get_normal, Plane.get_distance, float4x4.mulVec, float4x4.col,
    float4.get, float4.ofFn, float4.xyz, float3.scale, float3.divide, dot, Plane.mk.injEq,
    float4.mk.injEq]
  refine ⟨by ring, by ring, by ring, ?_⟩
  field_simp
  linear_combination (-p.equation.w) * hn

/-! ## C28: a line and a plane -/

/-- C28: for a line with origin `o` and direction `d` and a plane `p` with
`dot(d, p.get_normal()) != 0`, the point `intersect_line_plane` returns is `o + t * d`
for some `t`, and its `distance_to` the plane is 0. -/
theorem intersect_line_plane_on_both (l : Line K) (p : Plane K)
    (hd : dot l.direction p.get_normal ≠ 0) :
    (∃ t : K, intersect_line_plane l p = l.origin.add (l.direction.scale t)) ∧
      p.distance_to (intersect_line_plane l p) = 0 := by
  constructor
  · refine ⟨-(p.distance_to l.origin / dot l.direction p.get_normal), ?_⟩
    simp only [intersect_line_plane, float3.sub, float3.add, float3.scale, float3.mk.injEq]
    refine ⟨?_, ?_, ?_⟩ <;> ring
  · simp only [intersect_line_plane, Plane.distance_to, dot, float3.sub, float3.scale] at hd ⊢
    field_simp
    ring

/-- C28 at the line through (0, 0, 5) along (0, 0, -1) and the plane `z = 1`. -/
theorem intersect_line_plane_on_both_witness :
    dot (⟨⟨0, 0, 5⟩, ⟨0, 0, -1⟩⟩ : Line ℚ).direction
        (Plane.ofNormalPoint (⟨0, 0, 1⟩ : float3 ℚ) ⟨0, 0, 1⟩).get_normal ≠ 0 ∧
      (Plane.ofNormalPoint (⟨0, 0, 1⟩ : float3 ℚ) ⟨0, 0, 1⟩).distance_to
        (intersect_line_plane ⟨⟨0, 0, 5⟩, ⟨0, 0, -1⟩⟩
          (Plane.ofNormalPoint (⟨0, 0, 1⟩ : float3 ℚ) ⟨0, 0, 1⟩)) = 0 :=
  have hd : dot (⟨⟨0, 0, 5⟩, ⟨0, 0, -1⟩⟩ : Line ℚ).direction
      (Plane.ofNormalPoint (⟨0, 0, 1⟩ : float3 ℚ) ⟨0, 0, 1⟩).get_normal ≠ 0 := by
    norm_num [dot, Plane.ofNormalPoint, Plane.get_normal, float4.xyz]
  ⟨hd, (intersect_line_plane_on_both _ _ hd).2⟩

/-! ## C29: the centers -/

/-- C29 fails: the center of the `Bounds2D` from (0, 0) to (4, 2) is computed as (1, 1);
the midpoint is (2, 1). -/
theorem bounds2D_center_not_midpoint :
    (⟨⟨0, 0⟩, ⟨4, 2⟩⟩ : Bounds2D ℚ).center = ⟨1, 1⟩ ∧
      (⟨⟨0, 0⟩, ⟨4, 2⟩⟩ : Bounds2D ℚ).center ≠ ⟨(0 + 4) / 2, (0 + 2) / 2⟩ := by
  constructor <;> norm_num [Bounds2D.center]

/-- The sibling `Bounds3D::center` is the midpoint, and `Bounds2D::center` is the
midpoint on the `y` axis. -/
theorem bounds3D_center_midpoint (b : Bounds3D K) (c : Bounds2D K) :
    b.center = ⟨(b._min.x + b._max.x) / 2, (b._min.y + b._max.y) / 2,
        (b._min.z + b._max.z) / 2⟩ ∧
      c.center.y = (c._min.y + c._max.y) / 2 := by
  constructor
  · simp only [Bounds3D.center, float3.add, float3.scale, float3.mk.injEq]
    norm_num
    refine ⟨?_, ?_, ?_⟩ <;> ring
  · rfl
/-! ## C22: the views of the cubemap camera -/

/-- C22 fails away from the origin: for the world location (1, 0, 0) and face 0, +X,
`update` passes (1, 0, 0) as the look-at target, whatever `look_at_pose_rh` is; the
target minus the eye is (0, 0, 0), not the direction of the face. -/
theorem cubemap_view_target_not_offset :
    (∀ m : MathCore ℚ, CubemapCamera.viewMatrix m ⟨1, 0, 0⟩ 0
        = m.look_at_view_matrix ⟨1, 0, 0⟩ ⟨1, 0, 0⟩ ⟨0, -1, 0⟩) ∧
      (⟨1, 0, 0⟩ : float3 ℚ).sub ⟨1, 0, 0⟩ = ⟨0, 0, 0⟩ ∧
      (⟨1, 0, 0⟩ : float3 ℚ).sub ⟨1, 0, 0⟩ ≠ face_direction 0 := by
  refine ⟨fun m => rfl, ?_, ?_⟩ <;> norm_num [float3.sub, face_direction]

/-- What `update` passes to `look_at_pose_rh` for face `i`: the world location as eye,
the direction of the face itself as target and an up-vector perpendicular to that
direction. The target minus the eye is the direction of the face only at the
origin. -/
theorem cubemap_view_arguments (m : MathCore K) (worldLocation : float3 K) (i : Nat)
    (hi : i < 6) :
    CubemapCamera.viewMatrix m worldLocation i
        = m.look_at_view_matrix worldLocation (face_direction i)
            (CubemapCamera.upVecs.getD i ⟨0, 0, 0⟩) ∧
      dot (CubemapCamera.upVecs.getD i ⟨0, 0, 0⟩) (face_direction i : float3 K) = 0 ∧
      ((face_direction i : float3 K).sub worldLocation = face_direction i ↔
        worldLocation = ⟨0, 0, 0⟩) := by
  have hcases : i = 0 ∨ i = 1 ∨ i = 2 ∨ i = 3 ∨ i = 4 ∨ i = 5 := by omega
  obtain ⟨x, y, z⟩ := worldLocation
  rcases hcases with h | h | h | h | h | h <;> subst h <;>
    refine ⟨rfl, ?_, ?_⟩ <;>
    simp [CubemapCamera.upVecs, face_direction, dot, float3.sub]

/-! ## C30: the depth guard of `preprocess_includes` -/

/-- A file whose only include is itself never returns and never throws: every amount
of fuel runs out. -/
theorem preprocess_includes_self (fuel : Nat) :
    ∀ includes : List String,
      preprocess_includes example_files fuel [.directive "self.glsl"] includes 0 = none := by
  induction fuel with
  | zero => intro includes; rfl
  | succ n ih =>
    intro includes
    have hfile : example_files "self.glsl" = [.directive "self.glsl"] := rfl
    have hname : ("self.glsl" : String).isEmpty = false := by decide
    simp only [preprocess_includes, preprocess_includes.lines, hfile, hname, ih]
    simp

/-- C30 fails in both directions. A file with six include lines of a file without
includes, nested one level deep, raises 'exceeded max include recursion depth', while
with five it is expanded; `level0.glsl`, whose chain of nested includes is seven
levels deep, is expanded without error; and `self.glsl`, which includes itself, never
ends. -/
theorem preprocess_includes_counts_include_lines (fuel : Nat) :
    preprocess_includes example_files (fuel + 2)
        [.directive "leaf.glsl", .directive "leaf.glsl", .directive "leaf.glsl",
         .directive "leaf.glsl", .directive "leaf.glsl", .directive "leaf.glsl"] [] 0
      = some (.error .exceeded_max_include_recursion_depth) ∧
    (∃ r, preprocess_includes example_files (fuel + 2)
        [.directive "leaf.glsl", .directive "leaf.glsl", .directive "leaf.glsl",
         .directive "leaf.glsl", .directive "leaf.glsl"] [] 0 = some (.ok r)) ∧
    (∃ r, preprocess_includes example_files (fuel + 8) [.directive "level0.glsl"] [] 0
      = some (.ok r)) ∧
    preprocess_includes example_files fuel [.directive "self.glsl"] [] 0 = none := by
  have hleaf : example_files "leaf.glsl" = [.other "void main();"] := rfl
  have hname : ("leaf.glsl" : String).isEmpty = false := by decide
  refine ⟨?_, ?_, ?_, preprocess_includes_self fuel []⟩
  · cases fuel <;>
      simp [preprocess_includes, preprocess_includes.lines, hleaf, hname]
  · cases fuel <;>
      simp [preprocess_includes, preprocess_includes.lines, hleaf, hname]
  · have h0 : example_files "level0.glsl" = [.directive "level1.glsl"] := rfl
    have h1 : example_files "level1.glsl" = [.directive "level2.glsl"] := rfl
    have h2 : example_files "level2.glsl" = [.directive "level3.glsl"] := rfl
    have h3 : example_files "level3.glsl" = [.directive "level4.glsl"] := rfl
    have h4 : example_files "level4.glsl" = [.directive "level5.glsl"] := rfl
    have h5 : example_files "level5.glsl" = [.directive "leaf.glsl"] := rfl
    have e0 : ("level0.glsl" : String).isEmpty = false := by decide
    have e1 : ("level1.glsl" : String).isEmpty = false := by decide
    have e2 : ("level2.glsl" : String).isEmpty = false := by decide
    have e3 : ("level3.glsl" : String).isEmpty = false := by decide
    have e4 : ("level4.glsl" : String).isEmpty = false := by decide
    have e5 : ("level5.glsl" : String).isEmpty = false := by decide
    simp [preprocess_includes, preprocess_includes.lines, hleaf, hname, h0, h1, h2, h3, h4, h5,
      e0, e1, e2, e3, e4, e5]

end Theorems

end avl
